import Mathlib

/-!
Device service core: discovery reconciliation, predefined-device loading, readiness gate.

A shallow embedding of

* `pkg/service/async.go` (`whitelistPass`, `blacklistPass`, `processAsyncFilterAndAdd`,
  `processAsyncResults`, `sendAsyncValues`),
* `internal/provision/devices.go` (`LoadDevices`, `createDeviceDTO`),
* `internal/clients/init.go` (`validateClientConfig`, `InitDependencyClients`,
  `checkServiceAvailableViaRegistry`, ...),
* `internal/controller/v2restfuncs.go` (`DeleteDevice`).

Go maps are association lists: the list order is the order in which one `range` loop
enumerates the map, and `List.lookup` is the map index expression `m[k]`.  Collaborators
(the regexp library, the metadata client, the registry, the clock) are explicit
arguments, and every call made on them is recorded in a trace.  The goroutines of the
telemetry pipeline are a transition system whose moves the scheduler chooses.
-/

set_option autoImplicit false

namespace DeviceSdk

/-! ## Data model -/

/-- The Go type `map[string]string` of one protocol block (`ProtocolProperties`). -/
abbrev ProtocolProperties := List (String × String)

/-- The model `AutoEvent` of the core contracts. -/
structure AutoEvent where
  Frequency : String
  OnChange : Bool
  Resource : String
  deriving DecidableEq, Repr

/-- The candidate produced by a discovery scan (`dsModels.DiscoveredDevice`). -/
structure DiscoveredDevice where
  Name : String
  Description : String
  Protocols : List (String × ProtocolProperties)
  Labels : List String
  deriving DecidableEq, Repr

/-- The provisioning rule (`contract.ProvisionWatcher`), with the fields the core reads. -/
structure ProvisionWatcher where
  Name : String
  Identifiers : List (String × String)
  BlockingIdentifiers : List (String × List String)
  ProfileName : String
  ServiceName : String
  AdminState : String
  AutoEvents : List AutoEvent
  deriving DecidableEq, Repr

/-- What `regexp.MatchString(pattern, s)` returns: `matched` and the error, if any. -/
abbrev MatchString := String → String → Bool × Option String

/-! ## A fragment of the regexp library

`regexp.MatchString` belongs to the Go standard library.  The theorems about
`whitelistPass` hold for every function of its type; the concrete scenarios are
evaluated on the fragment below: an optional leading `^`, then literal characters and
`.`, each optionally followed by one `*`, then an optional trailing `$`.  As the library
documents, `MatchString` reports whether the string *contains* a match. -/

/-- Characters with a special meaning in the pattern syntax. -/
def isMeta (c : Char) : Bool :=
  c ∈ ['\\', '.', '+', '*', '?', '(', ')', '|', '[', ']', '{', '}', '^', '$']

/-- One character of the text against one atom of the pattern (`.` is any character but
the newline, a literal is itself). -/
def atomMatches (a c : Char) : Bool := if a == '.' then c != '\n' else a == c

/-- The body of a pattern of the fragment: atoms, each optionally starred. -/
def wellFormedBody : List Char → Bool
  | [] => true
  | [a] => a == '.' || !isMeta a
  | a :: b :: rest =>
    (a == '.' || !isMeta a) &&
      (if b == '*' then wellFormedBody rest else wellFormedBody (b :: rest))

/-- Zero or more repetitions of the atom `a`, then the continuation `k`. -/
def matchStar (a : Char) (k : List Char → Bool) : List Char → Bool
  | [] => k []
  | c :: cs => k (c :: cs) || (atomMatches a c && matchStar a k cs)

/-- Does the pattern body match at the beginning of the text?  With `toEnd` the match
has to reach the end of the text. -/
def matchHere (toEnd : Bool) : List Char → List Char → Bool
  | [], text => !toEnd || text.isEmpty
  | [a], text =>
    match text with
    | c :: cs => atomMatches a c && matchHere toEnd [] cs
    | [] => false
  | a :: b :: rest, text =>
    if b == '*' then matchStar a (matchHere toEnd rest) text
    else
      match text with
      | c :: cs => atomMatches a c && matchHere toEnd (b :: rest) cs
      | [] => false

/-- Does the text contain a match of the body (a match may begin at any position)? -/
def matchAnywhere (toEnd : Bool) (body : List Char) : List Char → Bool
  | [] => matchHere toEnd body []
  | c :: cs => matchHere toEnd body (c :: cs) || matchAnywhere toEnd body cs

/-- A pattern split into its anchors and its body. -/
structure Pattern where
  anchoredStart : Bool
  anchoredEnd : Bool
  body : List Char
  deriving DecidableEq, Repr

/-- Remove a trailing `$`. -/
def splitEnd (cs : List Char) : Bool × List Char :=
  if cs.getLast? = some '$' then (true, cs.dropLast) else (false, cs)

/-- Read a pattern of the fragment; `none` outside the fragment. -/
def parsePattern (pattern : String) : Option Pattern :=
  let cs := pattern.toList
  let (s, cs1) := match cs with
    | '^' :: rest => (true, rest)
    | _ => (false, cs)
  let (e, cs2) := splitEnd cs1
  if wellFormedBody cs2 then some ⟨s, e, cs2⟩ else none

/-- The fragment of `regexp.MatchString`: whether `s` contains a match of `pattern`.
A pattern outside the fragment is reported as an error. -/
def regexpMatchString : MatchString := fun pattern s =>
  match parsePattern pattern with
  | none => (false, some ("error parsing regexp: " ++ pattern))
  | some p =>
    if p.anchoredStart then (matchHere p.anchoredEnd p.body s.toList, none)
    else (matchAnywhere p.anchoredEnd p.body s.toList, none)

/-- Whether the *whole* of `s` matches `pattern` (the match begins at the first
character and ends at the last). -/
def regexpFullMatch (pattern s : String) : Bool :=
  match parsePattern pattern with
  | none => false
  | some p => matchHere true p.body s.toList

/-! ## Discovery reconciliation: the two tests (`pkg/service/async.go`) -/

/-- The inner loop of `whitelistPass` over `pw.Identifiers` for one protocol block:
the value of `matchedCount` when the loop is left (by exhaustion or by `break`). -/
def whitelistCount (ms : MatchString) (protocol : ProtocolProperties) :
    List (String × String) → Nat → Nat
  | [], matchedCount => matchedCount
  | (name, regex) :: rest, matchedCount =>
    match protocol.lookup name with
    | some value =>
      let r := ms regex value
      if !r.1 || r.2.isSome then matchedCount
      else whitelistCount ms protocol rest (matchedCount + 1)
    | none => whitelistCount ms protocol rest matchedCount

/-- The function `whitelistPass`: some protocol block reaches
`matchedCount == len(pw.Identifiers)`. -/
def whitelistPass (ms : MatchString) (d : DiscoveredDevice) (pw : ProvisionWatcher) : Bool :=
  d.Protocols.any fun protocol =>
    whitelistCount ms protocol.2 pw.Identifiers 0 == pw.Identifiers.length

/-- The function `blacklistPass`: `false` as soon as a protocol block carries, under a
blocking identifier's name, one of its listed values. -/
def blacklistPass (d : DiscoveredDevice) (pw : ProvisionWatcher) : Bool :=
  !(pw.BlockingIdentifiers.any fun entry =>
      d.Protocols.any fun protocol =>
        match protocol.2.lookup entry.1 with
        | some value => entry.2.any fun v => value == v
        | none => false)

/-- The guard of `processAsyncFilterAndAdd`: the watcher accepts the candidate. -/
def accepts (ms : MatchString) (d : DiscoveredDevice) (pw : ProvisionWatcher) : Bool :=
  whitelistPass ms d pw && blacklistPass d pw

/-! ## The device index and the metadata client -/

/-- The model `Device` of the core contracts, with the fields the core fills in. -/
structure Device where
  Name : String
  Description : String
  Protocols : List (String × ProtocolProperties)
  Labels : List String
  ProfileName : String
  ServiceName : String
  AdminState : String
  AutoEvents : List AutoEvent
  Created : Int
  deriving DecidableEq, Repr

/-- A device-resource descriptor of a profile, with the value properties the telemetry
pipeline passes to the conversion. -/
structure DeviceResource where
  Name : String
  MediaType : String
  FloatEncoding : String
  deriving DecidableEq, Repr

/-- A device profile of the index: its name, read by the loader, and its device
resources, read by the telemetry pipeline. -/
structure DeviceProfile where
  Name : String
  DeviceResources : List DeviceResource := []
  deriving DecidableEq, Repr

/-- Modelled from the spec: the device index of package `internal/v2/cache`, which is not
among the sources.  It holds devices, profiles and provisioning rules; `ForName` looks an
entry up by its unique name and `All` lists the rules in their stored order. -/
structure Cache where
  devices : List Device
  profiles : List DeviceProfile
  watchers : List ProvisionWatcher
  deriving DecidableEq, Repr

/-- The lookup `cache.Devices().ForName(name)`. -/
def Cache.deviceForName (c : Cache) (name : String) : Option Device :=
  c.devices.find? fun dev => dev.Name == name

/-- The lookup `cache.Profiles().ForName(name)`. -/
def Cache.profileForName (c : Cache) (name : String) : Option DeviceProfile :=
  c.profiles.find? fun prf => prf.Name == name

/-- The error type `errors.EdgeX`: a kind and a message. -/
structure EdgeX where
  kind : String
  message : String
  deriving DecidableEq, Repr

/-- The request `requests.AddDeviceRequest` with the device DTO in it. -/
structure AddDeviceRequest where
  RequestId : String
  Device : Device
  deriving DecidableEq, Repr

/-- The zero value of the Go struct `AddDeviceRequest`. -/
def AddDeviceRequest.zero : AddDeviceRequest :=
  { RequestId := "",
    Device :=
      { Name := "", Description := "", Protocols := [], Labels := [], ProfileName := "",
        ServiceName := "", AdminState := "", AutoEvents := [], Created := 0 } }

/-- A call observed on a collaborator of the discovery loop or of the loader. -/
inductive Effect where
  /-- The loop body of `processAsyncFilterAndAdd` is entered for a candidate and a rule. -/
  | watcher (device rule : String)
  /-- The call `cache.Devices().ForName(name)` and whether it found a device. -/
  | deviceForName (name : String) (found : Bool)
  /-- The call `cache.Profiles().ForName(name)` and whether it found a profile. -/
  | profileForName (name : String) (found : Bool)
  /-- The call `DeviceClient.Add(ctx, batch)` and the error it returned. -/
  | add (correlation : Option String) (batch : List AddDeviceRequest) (err : Option EdgeX)
  deriving DecidableEq, Repr

/-- The collaborators whose answers the code cannot compute: `uuid.New()`, the clock and
the metadata client.  Each answer is indexed by the number of earlier calls. -/
structure Env where
  /-- The string of the `n`-th `uuid.New()`. -/
  uuid : Nat → String
  /-- The value `time.Now().UnixNano()` of the `n`-th reading of the clock. -/
  now : Nat → Int
  /-- The error returned by the `n`-th call of `DeviceClient.Add` on a batch. -/
  add : Nat → List AddDeviceRequest → Option EdgeX

/-- The progress of a run: calls made so far and the trace of effects, oldest first. -/
structure Run where
  uuids : Nat
  clocks : Nat
  adds : Nat
  trace : List Effect
  deriving DecidableEq, Repr

/-- The run that has not started. -/
def Run.start : Run := ⟨0, 0, 0, []⟩

/-- The add calls of a trace, each with the error it returned, oldest first. -/
def addCalls : List Effect → List (List AddDeviceRequest × Option EdgeX)
  | [] => []
  | Effect.add _ batch err :: rest => (batch, err) :: addCalls rest
  | _ :: rest => addCalls rest

/-- The rules for which the loop body was entered, oldest first. -/
def watchersTried : List Effect → List String
  | [] => []
  | Effect.watcher _ rule :: rest => rule :: watchersTried rest
  | _ :: rest => watchersTried rest

/-- The names looked up in the device index, oldest first. -/
def deviceLookups : List Effect → List String
  | [] => []
  | Effect.deviceForName name _ :: rest => name :: deviceLookups rest
  | _ :: rest => deviceLookups rest

/-- Does the batch of an add call carry a request for the device name? -/
def mentions (name : String) (call : List AddDeviceRequest × Option EdgeX) : Bool :=
  call.1.any fun req => req.Device.Name == name

/-! ## Discovery reconciliation: the loop (`processAsyncFilterAndAdd`) -/

/-- The device entity built from a candidate and the rule that accepted it; the code
sets no `Created`, so the DTO of the request has the same fields. -/
def discoveredDevice (d : DiscoveredDevice) (pw : ProvisionWatcher) : Device :=
  { Name := d.Name, Description := d.Description, Protocols := d.Protocols,
    Labels := d.Labels, ProfileName := pw.ProfileName, ServiceName := pw.ServiceName,
    AdminState := pw.AdminState, AutoEvents := pw.AutoEvents, Created := 0 }

/-- The loop `for _, pw := range pws` for one candidate: the remaining rules and the run
so far give the run at the end of the loop. -/
def tryWatchers (ms : MatchString) (env : Env) (cache : Cache) (d : DiscoveredDevice) :
    List ProvisionWatcher → Run → Run
  | [], r => r
  | pw :: rest, r =>
    let r1 : Run := { r with trace := r.trace ++ [Effect.watcher d.Name pw.Name] }
    if whitelistPass ms d pw && blacklistPass d pw then
      match cache.deviceForName d.Name with
      | some _ => { r1 with trace := r1.trace ++ [Effect.deviceForName d.Name true] }
      | none =>
        let req : AddDeviceRequest :=
          { RequestId := env.uuid r1.uuids, Device := discoveredDevice d pw }
        let err := env.add r1.adds [req]
        let r2 : Run :=
          { r1 with
            uuids := r1.uuids + 1
            adds := r1.adds + 1
            trace := r1.trace ++ [Effect.deviceForName d.Name false, Effect.add none [req] err] }
        match err with
        | some _ => tryWatchers ms env cache d rest r2
        | none => r2
    else tryWatchers ms env cache d rest r1

/-- The loop `for _, d := range devices` over one batch, with the rules read at its
start. -/
def processBatch (ms : MatchString) (env : Env) (cache : Cache) :
    List DiscoveredDevice → Run → Run
  | [], r => r
  | d :: rest, r => processBatch ms env cache rest (tryWatchers ms env cache d cache.watchers r)

/-- The consumer `processAsyncFilterAndAdd` on the batches it receives before its context
is cancelled; each batch comes with the index as it stands while the batch is processed
(the loop reads the index and never writes it). -/
def processAsyncFilterAndAdd (ms : MatchString) (env : Env) :
    List (Cache × List DiscoveredDevice) → Run → Run
  | [], r => r
  | (cache, devices) :: rest, r =>
    processAsyncFilterAndAdd ms env rest (processBatch ms env cache devices r)

/-! ## Predefined-device loader (`internal/provision/devices.go`) -/

/-- A configured device entry (`common.DeviceConfig`). -/
structure DeviceConfig where
  Name : String
  Profile : String
  Description : String
  Labels : List String
  Protocols : List (String × ProtocolProperties)
  AutoEvents : List AutoEvent
  deriving DecidableEq, Repr

/-- The admin state constant `models.Unlocked`. -/
def Unlocked : String := "UNLOCKED"

/-- The error kind constant `errors.KindInvalidId`. -/
def KindInvalidId : String := "InvalidId"

/-- The duration constant `time.Millisecond`, in nanoseconds. -/
def Millisecond : Int := 1000000

/-- The error `createDeviceDTO` builds when the profile is not in the index. -/
def profileMissing (dc : DeviceConfig) : EdgeX :=
  ⟨KindInvalidId, "device profile " ++ dc.Profile ++ " for device " ++ dc.Name ++ " doesn't exist"⟩

/-- The conversion `dtos.FromDeviceModelToDTO` of the contracts library: the DTO takes
the fields of the device over, except the timestamp `Created`, which it leaves at zero. -/
def FromDeviceModelToDTO (device : Device) : Device :=
  { device with Created := 0 }

/-- The function `createDeviceDTO`; `nanos` is the reading of the clock. -/
def createDeviceDTO (cache : Cache) (nanos : Int) (name : String) (dc : DeviceConfig) :
    Except EdgeX Device :=
  match cache.profileForName dc.Profile with
  | none => Except.error (profileMissing dc)
  | some prf =>
    Except.ok (FromDeviceModelToDTO
      { Name := dc.Name, Description := dc.Description, Protocols := dc.Protocols,
        Labels := dc.Labels, ProfileName := prf.Name, ServiceName := name,
        AdminState := Unlocked, AutoEvents := dc.AutoEvents,
        Created := Int.tdiv nanos Millisecond })

/-- The loop of `LoadDevices` over the configured entries: the slice `addDevicesReq` and
the run so far give either the error returned from inside the loop or the slice at the
end of the loop, each with the run. -/
def loadLoop (env : Env) (cache : Cache) (serviceName : String) :
    List DeviceConfig → List AddDeviceRequest → Run → Except EdgeX (List AddDeviceRequest) × Run
  | [], addDevicesReq, r => (Except.ok addDevicesReq, r)
  | d :: rest, addDevicesReq, r =>
    match cache.deviceForName d.Name with
    | some _ =>
      loadLoop env cache serviceName rest addDevicesReq
        { r with trace := r.trace ++ [Effect.deviceForName d.Name true] }
    | none =>
      let r1 : Run := { r with trace := r.trace ++ [Effect.deviceForName d.Name false] }
      match createDeviceDTO cache (env.now r1.clocks) serviceName d with
      | Except.error err =>
        (Except.error err, { r1 with trace := r1.trace ++ [Effect.profileForName d.Profile false] })
      | Except.ok deviceDTO =>
        let req : AddDeviceRequest := { RequestId := env.uuid r1.uuids, Device := deviceDTO }
        loadLoop env cache serviceName rest (addDevicesReq ++ [req])
          { r1 with
            uuids := r1.uuids + 1
            clocks := r1.clocks + 1
            trace := r1.trace ++ [Effect.profileForName d.Profile true] }

/-- The function `LoadDevices`: the error it returns and the run of its effects.  The
slice starts as `make([]requests.AddDeviceRequest, len(deviceList))`, which holds
`len(deviceList)` zero requests. -/
def LoadDevices (env : Env) (cache : Cache) (serviceName : String)
    (deviceList : List DeviceConfig) : Option EdgeX × Run :=
  let addDevicesReq := List.replicate deviceList.length AddDeviceRequest.zero
  match loadLoop env cache serviceName deviceList addDevicesReq Run.start with
  | (Except.error err, r) => (some err, r)
  | (Except.ok batch, r) =>
    let correlation := env.uuid r.uuids
    let err := env.add r.adds batch
    (err,
      { r with
        uuids := r.uuids + 1
        adds := r.adds + 1
        trace := r.trace ++ [Effect.add (some correlation) batch err] })

/-- A configured entry at which `LoadDevices` fails: no device of its name is in the index
and its profile is not in the index either. -/
def unknownProfile (cache : Cache) (dc : DeviceConfig) : Bool :=
  (cache.deviceForName dc.Name).isNone && (cache.profileForName dc.Profile).isNone

/-- The configured entries for which `LoadDevices` builds a device: those whose name is
not in the index. -/
def newEntries (cache : Cache) (deviceList : List DeviceConfig) : List DeviceConfig :=
  deviceList.filter fun dc => (cache.deviceForName dc.Name).isNone

/-! ## Dependency readiness gate (`internal/clients/init.go`) -/

/-- The address of a dependency (`ClientInfo` of the bootstrap configuration). -/
structure ClientInfo where
  Host : String
  Port : Int
  deriving DecidableEq, Repr

/-- The configuration of the service, with the part the gate reads. -/
structure ConfigurationStruct where
  Clients : List (String × ClientInfo)
  deriving DecidableEq, Repr

/-- The key `common.ClientData` of the client map. -/
def ClientData : String := "Data"

/-- The key `common.ClientMetadata` of the client map. -/
def ClientMetadata : String := "Metadata"

/-- The registry key `clients.CoreDataServiceKey`. -/
def CoreDataServiceKey : String := "edgex-core-data"

/-- The registry key `clients.CoreMetaDataServiceKey`. -/
def CoreMetaDataServiceKey : String := "edgex-core-metadata"

/-- The map index `configuration.Clients[key]`: the zero value when the key is absent. -/
def ConfigurationStruct.client (c : ConfigurationStruct) (key : String) : ClientInfo :=
  (c.Clients.lookup key).getD ⟨"", 0⟩

/-- The function `validateClientConfig`: the error, if any. -/
def validateClientConfig (configuration : ConfigurationStruct) : Option String :=
  if (configuration.client ClientMetadata).Host.length == 0 then
    some "fatal error; Host setting for Core Metadata client not configured"
  else if (configuration.client ClientMetadata).Port == 0 then
    some "fatal error; Port setting for Core Metadata client not configured"
  else if (configuration.client ClientData).Host.length == 0 then
    some "fatal error; Host setting for Core Data client not configured"
  else if (configuration.client ClientData).Port == 0 then
    some "fatal error; Port setting for Core Ddata client not configured"
  else none

/-- What the registry answers at one moment (`registry.Client`). -/
structure RegistryClient where
  IsAlive : Bool
  IsServiceAvailable : String → Bool × Option String

/-- A step of an availability check that reaches outside the process. -/
inductive Probe where
  /-- The call `rc.IsAlive()` and its answer. -/
  | isAlive (alive : Bool)
  /-- The call `rc.IsServiceAvailable(serviceKey)` and its answer. -/
  | isServiceAvailable (serviceKey : String) (available : Bool) (err : Option String)
  /-- The request `client.Get` on the ping route of a dependency and its error. -/
  | ping (serviceId : String) (err : Option String)
  /-- The call `startupTimer.SleepForInterval()`. -/
  | sleep
  deriving DecidableEq, Repr

/-- The function `checkServiceAvailableViaRegistry`: the error it returns (`none` is
success) and the calls it made on the registry. -/
def checkServiceAvailableViaRegistry (serviceId : String) (rc : RegistryClient) :
    Option String × List Probe :=
  if !rc.IsAlive then
    (some ("unable to check status of " ++ serviceId ++ " service: Registry not running"),
      [Probe.isAlive false])
  else
    let serviceKey := if serviceId == ClientData then CoreDataServiceKey else CoreMetaDataServiceKey
    let answer := rc.IsServiceAvailable serviceKey
    match answer.2 with
    | some err => (some err, [Probe.isAlive true, Probe.isServiceAvailable serviceKey answer.1 answer.2])
    | none => (none, [Probe.isAlive true, Probe.isServiceAvailable serviceKey answer.1 answer.2])

/-- The surroundings of the gate.  Every answer is indexed by the dependency whose check
asks and by the number of the iteration of that check. -/
structure GateEnv where
  /-- The registry client of the container, `none` when `rc == nil`. -/
  registry : Option (String → Nat → RegistryClient)
  /-- The error of the ping request. -/
  ping : String → Nat → Option String
  /-- The answer of `startupTimer.HasNotElapsed()`. -/
  hasNotElapsed : String → Nat → Bool
  /-- Whether `ctx.Done()` is closed. -/
  cancelled : String → Nat → Bool

/-- The function `checkServiceAvailableByPing`. -/
def checkServiceAvailableByPing (env : GateEnv) (serviceId : String) (iteration : Nat) :
    Option String × List Probe :=
  (env.ping serviceId iteration, [Probe.ping serviceId (env.ping serviceId iteration)])

/-- The function `checkServiceAvailable`, from iteration `iteration` on, with the probes
made so far.  The loop runs until the timer has elapsed; `none` means that `fuel`
iterations were not enough to leave it. -/
def checkServiceAvailable (env : GateEnv) (serviceId : String) :
    Nat → Nat → List Probe → Option (Bool × List Probe)
  | 0, _, _ => none
  | fuel + 1, iteration, probes =>
    if env.hasNotElapsed serviceId iteration then
      if env.cancelled serviceId iteration then some (false, probes)
      else
        let probe :=
          match env.registry with
          | some rc => checkServiceAvailableViaRegistry serviceId (rc serviceId iteration)
          | none => checkServiceAvailableByPing env serviceId iteration
        match probe.1 with
        | none => some (true, probes ++ probe.2)
        | some _ =>
          checkServiceAvailable env serviceId fuel (iteration + 1)
            (probes ++ probe.2 ++ [Probe.sleep])
    else some (false, probes)

/-- The one check of `checkServiceAvailable` in iteration `iteration`: via the registry
when there is one, by ping otherwise. -/
def probeOnce (env : GateEnv) (serviceId : String) (iteration : Nat) :
    Option String × List Probe :=
  match env.registry with
  | some rc => checkServiceAvailableViaRegistry serviceId (rc serviceId iteration)
  | none => checkServiceAvailableByPing env serviceId iteration

/-- What the gate did: its result, the probes of each of the two concurrent checks, and
whether `initializeClients` ran. -/
structure GateResult where
  ok : Bool
  dataProbes : List Probe
  metadataProbes : List Probe
  initialized : Bool
  deriving DecidableEq, Repr

/-- The function `checkDependencyServices`: one check per dependency of
`dependencyList`, joined by the wait group; `checkingErr` is cleared by every check that
fails. -/
def checkDependencyServices (env : GateEnv) (fuel : Nat) :
    Option (Bool × List Probe × List Probe) :=
  match checkServiceAvailable env ClientData fuel 0 [],
      checkServiceAvailable env ClientMetadata fuel 0 [] with
  | some (okData, probesData), some (okMetadata, probesMetadata) =>
    some (okData && okMetadata, probesData, probesMetadata)
  | _, _ => none

/-- The function `InitDependencyClients`. -/
def InitDependencyClients (env : GateEnv) (configuration : ConfigurationStruct) (fuel : Nat) :
    Option GateResult :=
  match validateClientConfig configuration with
  | some _ => some ⟨false, [], [], false⟩
  | none =>
    match checkDependencyServices env fuel with
    | none => none
    | some (false, probesData, probesMetadata) => some ⟨false, probesData, probesMetadata, false⟩
    | some (true, probesData, probesMetadata) => some ⟨true, probesData, probesMetadata, true⟩

/-! ## Async telemetry pipeline (`pkg/service/async.go`) -/

/-- The lookup `cache.Profiles().DeviceResource(profileName, resourceName)`. -/
def Cache.deviceResource (c : Cache) (profileName resourceName : String) :
    Option DeviceResource :=
  match c.profileForName profileName with
  | none => none
  | some prf => prf.DeviceResources.find? fun dr => dr.Name == resourceName

/-- A raw value pushed by a driver (`dsModels.CommandValue`). -/
structure CommandValue where
  DeviceResourceName : String
  Origin : Int
  ValueType : String
  Value : String
  deriving DecidableEq, Repr

/-- A batch of raw values of one device (`dsModels.AsyncValues`). -/
structure AsyncValues where
  DeviceName : String
  CommandValues : List CommandValue
  deriving DecidableEq, Repr

/-- A normalized reading (`contract.Reading`). -/
structure Reading where
  DeviceName : String
  ResourceName : String
  ValueType : String
  Value : String
  Origin : Int
  MediaType : String
  FloatEncoding : String
  deriving DecidableEq, Repr

/-- The event built by `sendAsyncValues`. -/
structure Event where
  Device : String
  Readings : List Reading
  Origin : Int
  deriving DecidableEq, Repr

/-- The type of `common.CommandValueToReading(cv, deviceName, mediaType, encoding)`; the
function is not among the sources and is an argument of the pipeline. -/
abbrev ToReading := CommandValue → String → String → String → Reading

/-- A step of one worker that is visible outside it. -/
inductive AsyncEffect where
  /-- The send `working <- true`: a slot of the pool is taken. -/
  | acquire
  /-- The deferred receive `<-working`: the slot is given back. -/
  | release
  /-- The call `cache.Devices().ForName(name)` and whether it found a device. -/
  | deviceForName (name : String) (found : Bool)
  /-- The call `cache.Profiles().DeviceResource(profile, resource)` and whether it found
  a resource. -/
  | deviceResource (profile resource : String) (found : Bool)
  /-- The call `common.SendEvent(event, ...)`, which hands the event to the event client. -/
  | sendEvent (event : Event)
  deriving DecidableEq, Repr

/-- The loop of `sendAsyncValues` over `acv.CommandValues`: the slice `readings` and the
effects so far give the slice and the effects at the end of the loop.  (The incomplete
statement `event, err := application.comm` in the loop body names nothing that the
sources define and has no counterpart here.) -/
def readingsLoop (cache : Cache) (toReading : ToReading) (device : Device) :
    List CommandValue → List Reading → List AsyncEffect → List Reading × List AsyncEffect
  | [], readings, effects => (readings, effects)
  | cv :: rest, readings, effects =>
    match cache.deviceResource device.ProfileName cv.DeviceResourceName with
    | none =>
      readingsLoop cache toReading device rest readings
        (effects ++ [AsyncEffect.deviceResource device.ProfileName cv.DeviceResourceName false])
    | some dr =>
      readingsLoop cache toReading device rest
        (readings ++ [toReading cv device.Name dr.MediaType dr.FloatEncoding])
        (effects ++ [AsyncEffect.deviceResource device.ProfileName cv.DeviceResourceName true])

/-- The function `sendAsyncValues` as one worker runs it: its effects in program order.
`origin` is the value of `common.GetUniqueOrigin()`. -/
def sendAsyncValues (cache : Cache) (toReading : ToReading) (origin : Int)
    (acv : AsyncValues) : List AsyncEffect :=
  match cache.deviceForName acv.DeviceName with
  | none =>
    [AsyncEffect.acquire, AsyncEffect.deviceForName acv.DeviceName false, AsyncEffect.release]
  | some device =>
    let loop := readingsLoop cache toReading device acv.CommandValues []
      [AsyncEffect.acquire, AsyncEffect.deviceForName acv.DeviceName true]
    loop.2 ++
      [AsyncEffect.sendEvent { Device := device.Name, Readings := loop.1, Origin := origin },
        AsyncEffect.release]

/-- The events handed to `common.SendEvent` in a list of effects, oldest first. -/
def forwarded : List AsyncEffect → List Event
  | [] => []
  | AsyncEffect.sendEvent event :: rest => event :: forwarded rest
  | _ :: rest => forwarded rest

/-- The resource lookups in a list of effects, oldest first. -/
def resourceLookups : List AsyncEffect → List String
  | [] => []
  | AsyncEffect.deviceResource _ resource _ :: rest => resource :: resourceLookups rest
  | _ :: rest => resourceLookups rest

/-- The state of the pipeline: the inbound queue, the workers started by
`processAsyncResults` sorted by the point of `sendAsyncValues` they have reached, the
number of elements in the channel `working`, and the events forwarded so far. -/
structure Pipeline where
  /-- The items in `s.asyncCh`, oldest first. -/
  asyncCh : List AsyncValues
  /-- The workers at `working <- true`, which they have not passed. -/
  blocked : List AsyncValues
  /-- The workers past `working <- true` whose body has not run. -/
  running : List AsyncValues
  /-- The workers whose body is over and whose deferred `<-working` has not run. -/
  leaving : List AsyncValues
  /-- The number of workers that have returned. -/
  finished : Nat
  /-- The number of elements in the channel `working`. -/
  working : Nat
  /-- The events handed to `common.SendEvent`, oldest first. -/
  events : List Event
  deriving DecidableEq, Repr

/-- The pipeline before `processAsyncResults` has taken an item. -/
def Pipeline.init (items : List AsyncValues) : Pipeline :=
  { asyncCh := items, blocked := [], running := [], leaving := [], finished := 0,
    working := 0, events := [] }

/-- What the scheduler lets happen next. -/
inductive Move where
  /-- The dispatcher receives from `s.asyncCh` and runs `go s.sendAsyncValues(acv, working)`. -/
  | dispatch
  /-- The blocked worker at this position completes `working <- true`. -/
  | acquire (worker : Nat)
  /-- The running worker at this position runs its body, up to the return. -/
  | body (worker : Nat)
  /-- The leaving worker at this position runs the deferred `<-working`. -/
  | release (worker : Nat)
  deriving DecidableEq, Repr

/-- The surroundings of the pipeline: the index, the conversion and the origin of the
`n`-th event. -/
structure AsyncEnv where
  cache : Cache
  toReading : ToReading
  origin : Nat → Int

/-- One move of the pipeline with `AsyncBufferSize = size`; `none` when the move is not
enabled (the queue is empty, there is no such worker, or the channel `working`, made by
`make(chan bool, size)`, is full). -/
def Pipeline.step (size : Nat) (env : AsyncEnv) : Move → Pipeline → Option Pipeline
  | Move.dispatch, s =>
    match s.asyncCh with
    | [] => none
    | acv :: rest => some { s with asyncCh := rest, blocked := s.blocked ++ [acv] }
  | Move.acquire worker, s =>
    match s.blocked[worker]? with
    | none => none
    | some acv =>
      if s.working < size then
        some { s with
          blocked := s.blocked.eraseIdx worker
          running := s.running ++ [acv]
          working := s.working + 1 }
      else none
  | Move.body worker, s =>
    match s.running[worker]? with
    | none => none
    | some acv =>
      some { s with
        running := s.running.eraseIdx worker
        leaving := s.leaving ++ [acv]
        events := s.events ++
          forwarded (sendAsyncValues env.cache env.toReading (env.origin s.events.length) acv) }
  | Move.release worker, s =>
    match s.leaving[worker]? with
    | none => none
    | some _ =>
      some { s with
        leaving := s.leaving.eraseIdx worker
        finished := s.finished + 1
        working := s.working - 1 }

/-- A schedule, move after move; `none` when a move of the schedule is not enabled. -/
def Pipeline.exec (size : Nat) (env : AsyncEnv) : List Move → Pipeline → Option Pipeline
  | [], s => some s
  | move :: rest, s =>
    match Pipeline.step size env move s with
    | none => none
    | some s2 => Pipeline.exec size env rest s2

/-- The workers that hold a slot: past the acquisition, before the release. -/
def Pipeline.holders (s : Pipeline) : Nat := s.running.length + s.leaving.length

/-- The workers that have been started and have not returned. -/
def Pipeline.unfinished (s : Pipeline) : Nat :=
  s.blocked.length + s.running.length + s.leaving.length

/-! ## Device removal callback (`internal/controller/v2restfuncs.go`) -/

/-- A device as the controller reads it from the cache. -/
structure CachedDevice where
  Id : String
  Name : String
  Protocols : List (String × ProtocolProperties)
  deriving DecidableEq, Repr

/-- Modelled from the spec: the device cache of package `internal/cache`, which is not
among the sources; devices are found and removed by their unique id. -/
abbrev DeviceCache := List CachedDevice

/-- Modelled from the spec: the lookup `cache.Devices().ForId(id)`. -/
def DeviceCache.ForId (c : DeviceCache) (id : String) : Option CachedDevice :=
  c.find? fun dev => dev.Id == id

/-- Modelled from the spec: the operation `cache.Devices().Remove(id)`, which gives the
cache afterwards and the error; the error is there when no device has the id. -/
def DeviceCache.Remove (c : DeviceCache) (id : String) : DeviceCache × Option String :=
  match c.find? fun dev => dev.Id == id with
  | none => (c, some ("device " ++ id ++ " does not exist in cache"))
  | some _ => (c.filter fun dev => !(dev.Id == id), none)

/-- A call made by the removal handler. -/
inductive ControllerEffect where
  /-- The call `cache.Devices().ForId(id)` and whether it found a device. -/
  | forId (id : String) (found : Bool)
  /-- The call `autoevent.GetManager().StopForDevice(name)`. -/
  | stopForDevice (name : String)
  /-- The call `cache.Devices().Remove(id)` and its error. -/
  | remove (id : String) (err : Option String)
  /-- The call `driver.RemoveDevice(name, protocols)` and its error. -/
  | removeDevice (name : String) (protocols : List (String × ProtocolProperties))
      (err : Option String)
  /-- The call `writer.WriteHeader(status)`. -/
  | writeHeader (status : Nat)
  /-- The call `writer.Write(body)`. -/
  | write (body : String)
  deriving DecidableEq, Repr

/-- The handler `RestController.DeleteDevice`: the cache afterwards and the calls made,
in program order.  `driver` is the error of `driver.RemoveDevice`. -/
def DeleteDevice (driver : String → List (String × ProtocolProperties) → Option String)
    (cache : DeviceCache) (id correlationID : String) : DeviceCache × List ControllerEffect :=
  let found := cache.ForId id
  let device : CachedDevice := found.getD { Id := "", Name := "", Protocols := [] }
  let stop : List ControllerEffect :=
    if found.isSome then [ControllerEffect.stopForDevice device.Name] else []
  let removed := cache.Remove id
  let err := driver device.Name device.Protocols
  (removed.1,
    [ControllerEffect.forId id found.isSome] ++ stop ++
      [ControllerEffect.remove id removed.2,
        ControllerEffect.removeDevice device.Name device.Protocols err,
        ControllerEffect.writeHeader 200,
        ControllerEffect.write correlationID])

/-! ## Scenarios -/

/-- A candidate with one protocol block carrying a MAC address. -/
def macCandidate : DiscoveredDevice :=
  { Name := "camera-1", Description := "", Labels := [],
    Protocols := [("ethernet", [("mac", "AA:BB:CC:00:11:22")])] }

/-- A rule whose identifier is anchored at the start of the value. -/
def macWatcher : ProvisionWatcher :=
  { Name := "W1", Identifiers := [("mac", "^AA:BB:CC:.*")], BlockingIdentifiers := [],
    ProfileName := "P1", ServiceName := "svc", AdminState := "UNLOCKED", AutoEvents := [] }

/-- The same rule with the candidate's address among the blocked values. -/
def macWatcherBlocking : ProvisionWatcher :=
  { macWatcher with BlockingIdentifiers := [("mac", ["AA:BB:CC:00:11:22"])] }

/-- A rule whose identifier is a pattern without anchors. -/
def substringWatcher : ProvisionWatcher :=
  { macWatcher with Identifiers := [("mac", "BB")] }

/-- A candidate whose two properties sit in two different protocol blocks. -/
def splitCandidate : DiscoveredDevice :=
  { Name := "sensor-1", Description := "", Labels := [],
    Protocols := [("modbus", [("address", "10")]), ("http", [("port", "80")])] }

/-- A rule that asks for both properties. -/
def splitWatcher : ProvisionWatcher :=
  { Name := "W", Identifiers := [("address", "10"), ("port", "80")], BlockingIdentifiers := [],
    ProfileName := "P", ServiceName := "svc", AdminState := "UNLOCKED", AutoEvents := [] }

/-- A second rule that accepts the candidate with the MAC address, for another profile. -/
def macWatcherSecond : ProvisionWatcher :=
  { Name := "W2", Identifiers := [("mac", "^AA:.*:22$")], BlockingIdentifiers := [],
    ProfileName := "P2", ServiceName := "svc", AdminState := "LOCKED", AutoEvents := [] }

/-- An index without devices that stores the two rules in the order W1, W2. -/
def twoWatcherCache : Cache :=
  { devices := [], profiles := [{ Name := "P1" }, { Name := "P2" }], watchers := [macWatcher, macWatcherSecond] }

/-- A metadata client whose first add call fails and whose later calls succeed. -/
def firstAddFails : Env :=
  { uuid := fun n => if n = 0 then "id-0" else "id-n",
    now := fun _ => 1700000000123456789,
    add := fun n _ => if n = 0 then some ⟨"ServiceUnavailable", "metadata is down"⟩ else none }

/-- A metadata client whose every add call succeeds. -/
def addSucceeds : Env :=
  { uuid := fun n => if n = 0 then "id-0" else "id-n",
    now := fun _ => 1700000000123456789,
    add := fun _ _ => none }

/-- The device registered for the candidate with the MAC address under rule W1. -/
def registeredCamera : Device := discoveredDevice macCandidate macWatcher

/-- An index that stores rule W1 and no device. -/
def emptyIndex : Cache :=
  { devices := [], profiles := [{ Name := "P1" }], watchers := [macWatcher] }

/-- The same index once the registered device has been added to it. -/
def indexWithCamera : Cache :=
  { emptyIndex with devices := [registeredCamera] }

/-- An index that holds the device and stores the rules W1, W2. -/
def twoWatcherCacheWithCamera : Cache :=
  { twoWatcherCache with devices := [registeredCamera] }

/-- A configured entry for the camera, with a profile of the index. -/
def cameraConfig : DeviceConfig :=
  { Name := "camera-1", Profile := "P1", Description := "", Labels := [],
    Protocols := [("ethernet", [("mac", "AA:BB:CC:00:11:22")])], AutoEvents := [] }

/-- A configured entry whose profile is not in the index. -/
def orphanConfig : DeviceConfig :=
  { Name := "orphan-1", Profile := "P9", Description := "", Labels := [],
    Protocols := [], AutoEvents := [] }

/-- A configured entry after the orphan. -/
def lateConfig : DeviceConfig :=
  { Name := "late-1", Profile := "P1", Description := "", Labels := [],
    Protocols := [], AutoEvents := [] }

/-- A configuration whose metadata client has no host. -/
def noMetadataHost : ConfigurationStruct :=
  { Clients := [("Metadata", ⟨"", 59881⟩), ("Data", ⟨"localhost", 59880⟩)] }

/-- A registry that is alive and answers `false` without an error. -/
def aliveButUnavailable : RegistryClient :=
  { IsAlive := true, IsServiceAvailable := fun _ => (false, none) }

/-- Surroundings of the gate with that registry, a timer that has not elapsed and a
context that is not cancelled. -/
def unavailableGate : GateEnv :=
  { registry := some fun _ _ => aliveButUnavailable,
    ping := fun _ _ => some "connection refused",
    hasNotElapsed := fun _ _ => true,
    cancelled := fun _ _ => false }

/-- A candidate with one block that holds both properties. -/
def wholeCandidate : DiscoveredDevice :=
  { Name := "sensor-2", Description := "", Labels := [],
    Protocols := [("modbus", [("address", "10"), ("port", "80")])] }

/-- Surroundings of the gate without a registry: the ping of Core Data succeeds in its
second iteration, the ping of Core Metadata at once; the timer elapses after four
iterations. -/
def slowDataGate : GateEnv :=
  { registry := none,
    ping := fun serviceId iteration =>
      if serviceId == ClientData && iteration == 0 then some "connection refused" else none,
    hasNotElapsed := fun _ iteration => decide (iteration < 4),
    cancelled := fun _ _ => false }

/-- Surroundings of the gate whose context is cancelled from the start. -/
def cancelledGate : GateEnv :=
  { registry := none,
    ping := fun _ _ => none,
    hasNotElapsed := fun _ _ => true,
    cancelled := fun _ _ => true }

/-- A profile with two device resources. -/
def thermoProfile : DeviceProfile :=
  { Name := "Thermo",
    DeviceResources := [⟨"Temp", "", ""⟩, ⟨"Humidity", "", "eNotation"⟩] }

/-- A device of that profile. -/
def thermostat : Device :=
  { Name := "D1", Description := "", Protocols := [], Labels := [], ProfileName := "Thermo",
    ServiceName := "svc", AdminState := "UNLOCKED", AutoEvents := [], Created := 0 }

/-- A second device of that profile. -/
def boiler : Device :=
  { thermostat with Name := "D2" }

/-- An index with the two devices and their profile. -/
def telemetryCache : Cache :=
  { devices := [thermostat, boiler], profiles := [thermoProfile], watchers := [] }

/-- A conversion that copies the raw value into the reading. -/
def plainReading : ToReading := fun cv deviceName mediaType encoding =>
  { DeviceName := deviceName, ResourceName := cv.DeviceResourceName,
    ValueType := cv.ValueType, Value := cv.Value, Origin := cv.Origin,
    MediaType := mediaType, FloatEncoding := encoding }

/-- Three raw values of device D1; the second names a resource the profile lacks. -/
def threeValues : AsyncValues :=
  { DeviceName := "D1",
    CommandValues :=
      [⟨"Temp", 1001, "Int32", "42"⟩, ⟨"Pressure", 1002, "Int32", "7"⟩,
        ⟨"Humidity", 1003, "Float32", "55"⟩] }

/-- One raw value of device D2. -/
def boilerValue : AsyncValues :=
  { DeviceName := "D2", CommandValues := [⟨"Temp", 2001, "Int32", "80"⟩] }

/-- Raw values of a device that the index does not hold. -/
def strangerValues : AsyncValues :=
  { DeviceName := "D9", CommandValues := [⟨"Temp", 3001, "Int32", "1"⟩] }

/-- The surroundings of the pipeline for the scenarios. -/
def telemetryEnv : AsyncEnv :=
  { cache := telemetryCache, toReading := plainReading, origin := fun n => 5000 + n }

/-- A device cache with one device. -/
def oneDeviceCache : DeviceCache :=
  [{ Id := "id-1", Name := "D1", Protocols := [] }, { Id := "id-2", Name := "D2", Protocols := [] }]

/-- A configuration with the addresses of both clients. -/
def bothClients : ConfigurationStruct :=
  { Clients := [("Metadata", ⟨"localhost", 59881⟩), ("Data", ⟨"localhost", 59880⟩)] }

end DeviceSdk

/-! ## Theorems -/

namespace DeviceSdk

/-! ## The whitelist test -/

/-- The count never exceeds the start value plus the number of rules. -/
theorem whitelistCount_le (ms : MatchString) (protocol : ProtocolProperties)
    (ids : List (String × String)) (n : Nat) :
    whitelistCount ms protocol ids n ≤ n + ids.length := by
  induction ids generalizing n with
  | nil => simp [whitelistCount]
  | cons rule rest ih =>
    obtain ⟨name, regex⟩ := rule
    simp only [whitelistCount, List.length_cons]
    cases hl : protocol.lookup name with
    | none =>
      simp only
      have := ih n
      omega
    | some value =>
      simp only
      split
      · omega
      · have := ih (n + 1)
        omega

/-- The count reaches the number of rules exactly when every rule finds its property in
the block and the matcher reports a match without error. -/
theorem whitelistCount_eq_iff (ms : MatchString) (protocol : ProtocolProperties)
    (ids : List (String × String)) (n : Nat) :
    whitelistCount ms protocol ids n = n + ids.length ↔
      ∀ rule ∈ ids, ∃ value, protocol.lookup rule.1 = some value ∧
        ms rule.2 value = (true, none) := by
  induction ids generalizing n with
  | nil => simp [whitelistCount]
  | cons rule rest ih =>
    obtain ⟨name, regex⟩ := rule
    simp only [whitelistCount, List.length_cons, List.forall_mem_cons]
    cases hl : protocol.lookup name with
    | none =>
      simp only
      have hle := whitelistCount_le ms protocol rest n
      constructor
      · intro h
        omega
      · rintro ⟨⟨value, hv, _⟩, _⟩
        cases hv
    | some value =>
      simp only
      have hle := whitelistCount_le ms protocol rest (n + 1)
      obtain ⟨matched, err, hm⟩ : ∃ m e, ms regex value = (m, e) := ⟨_, _, rfl⟩
      rw [hm]
      cases matched <;> cases err
      · simp [hm]
      · simp [hm]
      · simp only [Bool.not_true, Option.isSome_none, Bool.or_self, Bool.false_eq_true,
          if_false]
        rw [show n + (rest.length + 1) = n + 1 + rest.length by omega, ih (n + 1)]
        constructor
        · intro h
          exact ⟨⟨value, rfl, hm⟩, h⟩
        · intro h
          exact h.2
      · simp [hm]

/-- C1 (as stated, refuted): the claim asks that the value *fully* match the regex.
The candidate with `mac = AA:BB:CC:00:11:22` passes the whitelist of a rule whose pattern
is `BB`, although no protocol block holds a value that matches `BB` as a whole. -/
theorem whitelistPass_accepts_partial_match :
    whitelistPass regexpMatchString macCandidate substringWatcher = true ∧
      ¬ ∃ protocol ∈ macCandidate.Protocols, ∀ rule ∈ substringWatcher.Identifiers,
          ∃ value, protocol.2.lookup rule.1 = some value ∧
            regexpFullMatch rule.2 value = true := by
  refine ⟨by decide, ?_⟩
  rintro ⟨protocol, hp, h⟩
  simp only [macCandidate, List.mem_singleton] at hp
  subst hp
  obtain ⟨value, hv, hfull⟩ := h ("mac", "BB") (by simp [substringWatcher])
  have hv2 : value = "AA:BB:CC:00:11:22" := by
    have : List.lookup "mac" [("mac", "AA:BB:CC:00:11:22")] = some "AA:BB:CC:00:11:22" := by
      decide
    simp only at hv
    rw [this] at hv
    exact (Option.some.inj hv).symm
  subst hv2
  revert hfull
  decide

/-- The whitelist test in terms of the matcher: some block satisfies every rule. -/
theorem whitelistPass_eq_true (ms : MatchString) (d : DiscoveredDevice)
    (pw : ProvisionWatcher) :
    whitelistPass ms d pw = true ↔
      ∃ protocol ∈ d.Protocols, ∀ rule ∈ pw.Identifiers,
        ∃ value, protocol.2.lookup rule.1 = some value ∧ ms rule.2 value = (true, none) := by
  unfold whitelistPass
  rw [List.any_eq_true]
  constructor
  · rintro ⟨protocol, hp, h⟩
    refine ⟨protocol, hp, ?_⟩
    rw [← whitelistCount_eq_iff ms protocol.2 pw.Identifiers 0]
    simpa using h
  · rintro ⟨protocol, hp, h⟩
    refine ⟨protocol, hp, ?_⟩
    rw [← whitelistCount_eq_iff ms protocol.2 pw.Identifiers 0] at h
    simpa using h

/-- C1 (amended): for every matcher, `whitelistPass` returns true exactly when some
protocol property set of the candidate contains, for every identifier rule of the
watcher, the named property with a value for which `regexp.MatchString` reports a match
and no error (a match anywhere in the value: an unanchored pattern is not held against
the whole value). -/
theorem whitelistPass_iff (ms : MatchString) (d : DiscoveredDevice) (pw : ProvisionWatcher) :
    whitelistPass ms d pw = true ↔
      ∃ protocol ∈ d.Protocols, ∀ rule ∈ pw.Identifiers,
        ∃ value, protocol.2.lookup rule.1 = some value ∧ ms rule.2 value = (true, none) :=
  whitelistPass_eq_true ms d pw

/-! ## The blacklist test -/

/-- C2: `blacklistPass` returns false exactly when some protocol property set of the
candidate, whichever it is, holds under the name of a blocking identifier a value equal
to one of the values listed for that name; and a candidate for which it returns false is
not accepted by the watcher, whatever the whitelist says. -/
theorem blacklistPass_false_iff (d : DiscoveredDevice) (pw : ProvisionWatcher) :
    (blacklistPass d pw = false ↔
      ∃ protocol ∈ d.Protocols, ∃ entry ∈ pw.BlockingIdentifiers,
        ∃ value, protocol.2.lookup entry.1 = some value ∧ value ∈ entry.2) ∧
    (blacklistPass d pw = false → ∀ ms : MatchString, accepts ms d pw = false) := by
  constructor
  · unfold blacklistPass
    rw [Bool.not_eq_false_eq_eq_true, List.any_eq_true]
    constructor
    · rintro ⟨entry, he, h⟩
      rw [List.any_eq_true] at h
      obtain ⟨protocol, hp, h⟩ := h
      refine ⟨protocol, hp, entry, he, ?_⟩
      cases hl : protocol.2.lookup entry.1 with
      | none => simp [hl] at h
      | some value =>
        simp only [hl, List.any_eq_true, beq_iff_eq] at h
        obtain ⟨v, hv, hvv⟩ := h
        exact ⟨value, rfl, hvv ▸ hv⟩
    · rintro ⟨protocol, hp, entry, he, value, hl, hv⟩
      refine ⟨entry, he, ?_⟩
      rw [List.any_eq_true]
      refine ⟨protocol, hp, ?_⟩
      simp only [hl, List.any_eq_true, beq_iff_eq]
      exact ⟨value, hv, rfl⟩
  · intro h ms
    simp [accepts, h]

/-- C2, the blacklist override scenario: the candidate passes the whitelist of the
watcher, carries a blocked value, and is not accepted. -/
theorem blacklistPass_override :
    whitelistPass regexpMatchString macCandidate macWatcherBlocking = true ∧
      blacklistPass macCandidate macWatcherBlocking = false ∧
      accepts regexpMatchString macCandidate macWatcherBlocking = false :=
  ⟨by decide, by decide,
    (blacklistPass_false_iff macCandidate macWatcherBlocking).2 (by decide) regexpMatchString⟩

/-! ## One block has to satisfy the whole rule set -/

/-- C3: when the watcher has at least one identifier and no single protocol property set
of the candidate contains all the property names of the identifiers, `whitelistPass` is
false, for every matcher. -/
theorem whitelistPass_needs_single_block (ms : MatchString) (d : DiscoveredDevice)
    (pw : ProvisionWatcher) (_hne : pw.Identifiers ≠ [])
    (hsplit : ∀ protocol ∈ d.Protocols,
      ∃ rule ∈ pw.Identifiers, protocol.2.lookup rule.1 = none) :
    whitelistPass ms d pw = false := by
  rw [Bool.eq_false_iff]
  intro h
  rw [whitelistPass_eq_true] at h
  obtain ⟨protocol, hp, hall⟩ := h
  obtain ⟨rule, hr, hnone⟩ := hsplit protocol hp
  obtain ⟨value, hv, _⟩ := hall rule hr
  rw [hnone] at hv
  cases hv

/-- C3, a split candidate: each identifier is present and matching in some block, no
block holds both, and the whitelist fails. -/
theorem whitelistPass_split_candidate :
    (∀ rule ∈ splitWatcher.Identifiers, ∃ protocol ∈ splitCandidate.Protocols,
        (match protocol.2.lookup rule.1 with
          | some value => (regexpMatchString rule.2 value).1
          | none => false) = true) ∧
      whitelistPass regexpMatchString splitCandidate splitWatcher = false :=
  ⟨by decide,
    whitelistPass_needs_single_block regexpMatchString splitCandidate splitWatcher
      (by decide) (by decide)⟩

/-! ## Traces -/

/-- The add calls of a concatenation. -/
theorem addCalls_append (a b : List Effect) : addCalls (a ++ b) = addCalls a ++ addCalls b := by
  induction a with
  | nil => rfl
  | cons e rest ih => cases e <;> simp [addCalls, ih]

/-- The rules tried in a concatenation. -/
theorem watchersTried_append (a b : List Effect) :
    watchersTried (a ++ b) = watchersTried a ++ watchersTried b := by
  induction a with
  | nil => rfl
  | cons e rest ih => cases e <;> simp [watchersTried, ih]

/-- The device lookups of a concatenation. -/
theorem deviceLookups_append (a b : List Effect) :
    deviceLookups (a ++ b) = deviceLookups a ++ deviceLookups b := by
  induction a with
  | nil => rfl
  | cons e rest ih => cases e <;> simp [deviceLookups, ih]

/-! ## First match, with fall-through on failure -/

/-- C4: for a candidate whose name is not in the index and any ordered list of watchers,
the add calls issued for the candidate are single-request batches for the devices built
from the first accepting watchers, in stored order; every call but the last one failed,
so at most one call succeeds; and the calls stop only when one succeeds or when all
accepting watchers have been tried.  Hence a successful registration carries the profile
of the first accepting watcher whose add succeeded and no add is issued for a later
watcher. -/
theorem tryWatchers_first_match (ms : MatchString) (env : Env) (cache : Cache)
    (d : DiscoveredDevice) (pws : List ProvisionWatcher) (r : Run)
    (hnew : cache.deviceForName d.Name = none) :
    ∃ out, (tryWatchers ms env cache d pws r).trace = r.trace ++ out ∧
      (addCalls out).map (fun call => call.1.map fun req => req.Device) =
        ((pws.filter (accepts ms d)).take (addCalls out).length).map
          (fun pw => [discoveredDevice d pw]) ∧
      (∀ call ∈ (addCalls out).dropLast, call.2 ≠ none) ∧
      ((addCalls out).filter fun call => call.2.isNone).length ≤ 1 ∧
      ((addCalls out).length = (pws.filter (accepts ms d)).length ∨
        ∃ call, (addCalls out).getLast? = some call ∧ call.2 = none) := by
  induction pws generalizing r with
  | nil => exact ⟨[], by simp [tryWatchers, addCalls]⟩
  | cons pw rest ih =>
    by_cases hacc : accepts ms d pw = true
    · have hacc2 : (whitelistPass ms d pw && blacklistPass d pw) = true := hacc
      cases herr : env.add r.adds
          [{ RequestId := env.uuid r.uuids, Device := discoveredDevice d pw }] with
      | none =>
        refine ⟨[Effect.watcher d.Name pw.Name, Effect.deviceForName d.Name false,
          Effect.add none [{ RequestId := env.uuid r.uuids, Device := discoveredDevice d pw }]
            none], ?_, ?_⟩
        · simp [tryWatchers, hacc2, hnew, herr]
        · simp [addCalls, hacc]
      | some e =>
        obtain ⟨out, htrace, hmap, hfail, hcount, hlast⟩ := ih
          { uuids := r.uuids + 1, clocks := r.clocks, adds := r.adds + 1,
            trace := r.trace ++ [Effect.watcher d.Name pw.Name] ++
              [Effect.deviceForName d.Name false,
                Effect.add none
                  [{ RequestId := env.uuid r.uuids, Device := discoveredDevice d pw }]
                  (some e)] }
        have hcalls : addCalls (Effect.watcher d.Name pw.Name ::
            Effect.deviceForName d.Name false ::
            Effect.add none [{ RequestId := env.uuid r.uuids, Device := discoveredDevice d pw }]
              (some e) :: out) =
            ([{ RequestId := env.uuid r.uuids, Device := discoveredDevice d pw }], some e) ::
              addCalls out := rfl
        refine ⟨Effect.watcher d.Name pw.Name :: Effect.deviceForName d.Name false ::
          Effect.add none [{ RequestId := env.uuid r.uuids, Device := discoveredDevice d pw }]
            (some e) :: out, ?_, ?_, ?_, ?_, ?_⟩
        · simp only [tryWatchers, hacc2, hnew, herr, if_true]
          rw [htrace]
          simp
        · rw [hcalls]
          simp only [List.map_cons, List.length_cons, List.filter_cons, hacc, if_true,
            List.take_succ_cons, List.map_nil]
          rw [hmap]
        · intro call hcall
          rw [hcalls] at hcall
          cases hout : addCalls out with
          | nil => simp [hout] at hcall
          | cons c cs =>
            rw [hout, List.dropLast_cons₂] at hcall
            rcases List.mem_cons.1 hcall with h | h
            · subst h
              simp
            · exact hfail call (hout ▸ h)
        · rw [hcalls]
          simpa using hcount
        · rw [hcalls]
          simp only [List.length_cons, List.filter_cons, hacc, if_true]
          rcases hlast with h | ⟨call, hc, hn⟩
          · exact Or.inl (by omega)
          · refine Or.inr ⟨call, ?_, hn⟩
            cases hout : addCalls out with
            | nil => simp [hout] at hc
            | cons c cs =>
              rw [hout] at hc
              rw [List.getLast?_cons_cons]
              exact hc
    · have hacc2 : (whitelistPass ms d pw && blacklistPass d pw) = false := by
        simpa [accepts] using hacc
      obtain ⟨out, htrace, hmap, hfail, hcount, hlast⟩ := ih
        { r with trace := r.trace ++ [Effect.watcher d.Name pw.Name] }
      refine ⟨Effect.watcher d.Name pw.Name :: out, ?_, ?_, ?_, ?_, ?_⟩
      · simp only [tryWatchers, hacc2]
        rw [if_neg (by simp), htrace]
        simp
      · simpa [addCalls, hacc] using hmap
      · simpa [addCalls] using hfail
      · simpa [addCalls] using hcount
      · simpa [addCalls, hacc] using hlast

/-- C4, first match wins: the candidate matches W1, whose add fails, and W2, whose add
succeeds; exactly two add calls are made, and the successful one uses the profile of
W2. -/
theorem tryWatchers_first_match_two_watchers :
    twoWatcherCache.deviceForName macCandidate.Name = none ∧
      (∃ out, (tryWatchers regexpMatchString firstAddFails twoWatcherCache macCandidate
            twoWatcherCache.watchers Run.start).trace = Run.start.trace ++ out ∧
          (addCalls out).map (fun call => call.1.map fun req => req.Device) =
            ((twoWatcherCache.watchers.filter (accepts regexpMatchString macCandidate)).take
              (addCalls out).length).map (fun pw => [discoveredDevice macCandidate pw]) ∧
          (∀ call ∈ (addCalls out).dropLast, call.2 ≠ none) ∧
          ((addCalls out).filter fun call => call.2.isNone).length ≤ 1 ∧
          ((addCalls out).length =
              (twoWatcherCache.watchers.filter (accepts regexpMatchString macCandidate)).length ∨
            ∃ call, (addCalls out).getLast? = some call ∧ call.2 = none)) ∧
      (addCalls (tryWatchers regexpMatchString firstAddFails twoWatcherCache macCandidate
          twoWatcherCache.watchers Run.start).trace).map
        (fun call => (call.1.map fun req => req.Device.ProfileName, call.2.isNone)) =
        [(["P1"], false), (["P2"], true)] :=
  ⟨by decide,
    tryWatchers_first_match regexpMatchString firstAddFails twoWatcherCache macCandidate
      twoWatcherCache.watchers Run.start (by decide),
    by decide⟩

/-! ## Deduplication against the index -/

/-- The trace of one candidate: its add calls are single-request batches for the
candidate's name, and when the name is in the index there is no add call and the rules
are tried up to the first accepting one only. -/
theorem tryWatchers_trace (ms : MatchString) (env : Env) (cache : Cache)
    (d : DiscoveredDevice) (pws : List ProvisionWatcher) (r : Run) :
    ∃ out, (tryWatchers ms env cache d pws r).trace = r.trace ++ out ∧
      (∀ call ∈ addCalls out, call.1.map (fun req => req.Device.Name) = [d.Name]) ∧
      ((cache.deviceForName d.Name).isSome = true →
        addCalls out = [] ∧
        watchersTried out =
          (pws.take ((pws.takeWhile fun pw => !accepts ms d pw).length + 1)).map
            fun pw => pw.Name) := by
  induction pws generalizing r with
  | nil => exact ⟨[], by simp [tryWatchers, addCalls, watchersTried]⟩
  | cons pw rest ih =>
    by_cases hacc : accepts ms d pw = true
    · have hacc2 : (whitelistPass ms d pw && blacklistPass d pw) = true := hacc
      cases hdev : cache.deviceForName d.Name with
      | some dev =>
        refine ⟨[Effect.watcher d.Name pw.Name, Effect.deviceForName d.Name true], ?_, ?_, ?_⟩
        · simp [tryWatchers, hacc2, hdev]
        · simp [addCalls]
        · intro _
          simp [addCalls, watchersTried, List.takeWhile_cons, hacc]
      | none =>
        cases herr : env.add r.adds
            [{ RequestId := env.uuid r.uuids, Device := discoveredDevice d pw }] with
        | none =>
          refine ⟨[Effect.watcher d.Name pw.Name, Effect.deviceForName d.Name false,
            Effect.add none
              [{ RequestId := env.uuid r.uuids, Device := discoveredDevice d pw }] none],
            ?_, ?_, ?_⟩
          · simp [tryWatchers, hacc2, hdev, herr]
          · simp [addCalls, discoveredDevice]
          · simp
        | some e =>
          obtain ⟨out, htrace, hname, _⟩ := ih
            { uuids := r.uuids + 1, clocks := r.clocks, adds := r.adds + 1,
              trace := r.trace ++ [Effect.watcher d.Name pw.Name] ++
                [Effect.deviceForName d.Name false,
                  Effect.add none
                    [{ RequestId := env.uuid r.uuids, Device := discoveredDevice d pw }]
                    (some e)] }
          refine ⟨Effect.watcher d.Name pw.Name :: Effect.deviceForName d.Name false ::
            Effect.add none [{ RequestId := env.uuid r.uuids, Device := discoveredDevice d pw }]
              (some e) :: out, ?_, ?_, ?_⟩
          · simp only [tryWatchers, hacc2, hdev, herr, if_true]
            rw [htrace]
            simp
          · intro call hcall
            simp only [addCalls, List.mem_cons] at hcall
            rcases hcall with h | h
            · subst h
              simp [discoveredDevice]
            · exact hname call h
          · simp
    · have hacc2 : (whitelistPass ms d pw && blacklistPass d pw) = false := by
        simpa [accepts] using hacc
      obtain ⟨out, htrace, hname, hknown⟩ := ih
        { r with trace := r.trace ++ [Effect.watcher d.Name pw.Name] }
      refine ⟨Effect.watcher d.Name pw.Name :: out, ?_, ?_, ?_⟩
      · simp only [tryWatchers, hacc2]
        rw [if_neg (by simp), htrace]
        simp
      · simpa [addCalls] using hname
      · intro h
        obtain ⟨h1, h2⟩ := hknown h
        refine ⟨by simpa [addCalls] using h1, ?_⟩
        simp [watchersTried, h2, List.takeWhile_cons, hacc]

/-- The add calls of a batch that carry a name held by the index are those made before
the batch. -/
theorem processBatch_known_name (ms : MatchString) (env : Env) (cache : Cache)
    (name : String) (hknown : (cache.deviceForName name).isSome = true)
    (devices : List DiscoveredDevice) (r : Run) :
    (addCalls (processBatch ms env cache devices r).trace).filter (mentions name) =
      (addCalls r.trace).filter (mentions name) := by
  induction devices generalizing r with
  | nil => rfl
  | cons d rest ih =>
    simp only [processBatch]
    rw [ih]
    obtain ⟨out, htrace, hname, hk⟩ := tryWatchers_trace ms env cache d cache.watchers r
    rw [htrace, addCalls_append, List.filter_append]
    have hnone : (addCalls out).filter (mentions name) = [] := by
      by_cases hd : d.Name = name
      · rw [(hk (hd ▸ hknown)).1]
        rfl
      · rw [List.filter_eq_nil_iff]
        intro call hcall
        have hc := hname call hcall
        simp only [mentions, List.any_eq_true, beq_iff_eq, not_exists, not_and]
        intro req hreq hreqname
        have : req.Device.Name ∈ call.1.map (fun req => req.Device.Name) :=
          List.mem_map_of_mem _ hreq
        rw [hc, List.mem_singleton] at this
        exact hd (this ▸ hreqname)
    rw [hnone, List.append_nil]

/-- C5: when the index holds a device name, no add call of any batch carries that name,
whatever watchers accept the candidate; and for a candidate of that name the watchers
are tried up to the first accepting one only, with no add call. -/
theorem known_candidate_not_registered (ms : MatchString) (env : Env) (cache : Cache)
    (name : String) (hknown : (cache.deviceForName name).isSome = true) :
    (∀ (devices : List DiscoveredDevice) (r : Run),
      (addCalls (processBatch ms env cache devices r).trace).filter (mentions name) =
        (addCalls r.trace).filter (mentions name)) ∧
    (∀ (d : DiscoveredDevice) (pws : List ProvisionWatcher) (r : Run), d.Name = name →
      ∃ out, (tryWatchers ms env cache d pws r).trace = r.trace ++ out ∧
        addCalls out = [] ∧
        watchersTried out =
          (pws.take ((pws.takeWhile fun pw => !accepts ms d pw).length + 1)).map
            fun pw => pw.Name) := by
  refine ⟨processBatch_known_name ms env cache name hknown, ?_⟩
  intro d pws r hd
  obtain ⟨out, htrace, _, hk⟩ := tryWatchers_trace ms env cache d pws r
  exact ⟨out, htrace, hk (hd ▸ hknown)⟩

/-- C5, a known camera: the index holds the candidate's name, the batch issues no add
call for it, and only the first rule is tried although both rules accept it. -/
theorem known_candidate_not_registered_camera :
    (twoWatcherCacheWithCamera.deviceForName "camera-1").isSome = true ∧
      (addCalls (processBatch regexpMatchString addSucceeds twoWatcherCacheWithCamera
          [macCandidate] Run.start).trace).filter (mentions "camera-1") =
        (addCalls Run.start.trace).filter (mentions "camera-1") ∧
      watchersTried (processBatch regexpMatchString addSucceeds twoWatcherCacheWithCamera
          [macCandidate] Run.start).trace = ["W1"] :=
  ⟨by decide,
    (known_candidate_not_registered regexpMatchString addSucceeds twoWatcherCacheWithCamera
      "camera-1" (by decide)).1 [macCandidate] Run.start,
    by decide⟩

/-! ## Registration across batches -/

/-- Processing two lists of batches one after the other. -/
theorem processAsyncFilterAndAdd_append (ms : MatchString) (env : Env)
    (pre post : List (Cache × List DiscoveredDevice)) (r : Run) :
    processAsyncFilterAndAdd ms env (pre ++ post) r =
      processAsyncFilterAndAdd ms env post (processAsyncFilterAndAdd ms env pre r) := by
  induction pre generalizing r with
  | nil => rfl
  | cons round rest ih =>
    obtain ⟨cache, devices⟩ := round
    simp only [List.cons_append, processAsyncFilterAndAdd]
    exact ih _

/-- C6 (as stated, refuted): the loop never writes the index, so a candidate that comes
twice in one batch, with a client that accepts every add, is registered twice: two add
calls for the same name, both successful. -/
theorem repeated_candidate_registered_twice :
    (addCalls (processAsyncFilterAndAdd regexpMatchString addSucceeds
        [(emptyIndex, [macCandidate, macCandidate])] Run.start).trace).map
      (fun call => (call.1.map fun req => req.Device.Name, call.2.isNone)) =
      [(["camera-1"], true), (["camera-1"], true)] := by
  decide

/-- C6 (amended): over any sequence of batches, once the index holds the name X for
every batch still to come, no add call for X is made any more: the add calls for X of
the whole sequence are those of the batches processed before. -/
theorem registered_name_not_added_again (ms : MatchString) (env : Env) (name : String)
    (pre post : List (Cache × List DiscoveredDevice)) (r : Run)
    (hknown : ∀ round ∈ post, (round.1.deviceForName name).isSome = true) :
    (addCalls (processAsyncFilterAndAdd ms env (pre ++ post) r).trace).filter (mentions name) =
      (addCalls (processAsyncFilterAndAdd ms env pre r).trace).filter (mentions name) := by
  rw [processAsyncFilterAndAdd_append]
  generalize processAsyncFilterAndAdd ms env pre r = r0
  induction post generalizing r0 with
  | nil => rfl
  | cons round rest ih =>
    obtain ⟨cache, devices⟩ := round
    simp only [processAsyncFilterAndAdd]
    rw [ih (fun round h => hknown round (List.mem_cons_of_mem _ h))]
    exact processBatch_known_name ms env cache name (hknown (cache, devices) (by simp))
      devices r0

/-- C6, two scans: the first scan registers the camera, the index holds it at the
second scan, and the two scans together make exactly one add call for it. -/
theorem registered_name_not_added_again_two_scans :
    (∀ round ∈ [(indexWithCamera, [macCandidate])],
        (round.1.deviceForName "camera-1").isSome = true) ∧
      (addCalls (processAsyncFilterAndAdd regexpMatchString addSucceeds
          ([(emptyIndex, [macCandidate])] ++ [(indexWithCamera, [macCandidate])])
          Run.start).trace).filter (mentions "camera-1") =
        (addCalls (processAsyncFilterAndAdd regexpMatchString addSucceeds
          [(emptyIndex, [macCandidate])] Run.start).trace).filter (mentions "camera-1") ∧
      ((addCalls (processAsyncFilterAndAdd regexpMatchString addSucceeds
          ([(emptyIndex, [macCandidate])] ++ [(indexWithCamera, [macCandidate])])
          Run.start).trace).filter (mentions "camera-1")).map
        (fun call => call.2.isNone) = [true] :=
  ⟨by decide,
    registered_name_not_added_again regexpMatchString addSucceeds "camera-1"
      [(emptyIndex, [macCandidate])] [(indexWithCamera, [macCandidate])] Run.start
      (by decide),
    by decide⟩

/-! ## Predefined-device loader -/

/-- C7 (the code departs from the claim): for one configured entry that is not in the
index and whose profile is known, the batch that `LoadDevices` submits holds two
requests, the zero request left by `make([]requests.AddDeviceRequest, len(deviceList))`
and then the request built for the entry, where the claim asks for the built request
alone. -/
theorem LoadDevices_batch_starts_with_zero_requests :
    (addCalls (LoadDevices addSucceeds emptyIndex "svc" [cameraConfig]).2.trace).map
        (fun call => call.1) =
      [[AddDeviceRequest.zero,
        { RequestId := "id-0",
          Device :=
            { Name := "camera-1", Description := "", Labels := [],
              Protocols := [("ethernet", [("mac", "AA:BB:CC:00:11:22")])],
              ProfileName := "P1", ServiceName := "svc", AdminState := "UNLOCKED",
              AutoEvents := [], Created := 0 } }]] ∧
      (newEntries emptyIndex [cameraConfig]).length = 1 := by
  decide

/-- The loop of the loader up to the first entry with an unknown profile: it returns the
error of that entry, adds no call on the metadata client and looks up no later entry. -/
theorem loadLoop_unknown_profile (env : Env) (cache : Cache) (serviceName : String)
    (pre : List DeviceConfig) (bad : DeviceConfig) (rest : List DeviceConfig)
    (hpre : ∀ dc ∈ pre, unknownProfile cache dc = false)
    (hbad : unknownProfile cache bad = true)
    (reqs : List AddDeviceRequest) (r : Run) :
    ∃ r2, loadLoop env cache serviceName (pre ++ bad :: rest) reqs r =
        (Except.error (profileMissing bad), r2) ∧
      addCalls r2.trace = addCalls r.trace ∧
      deviceLookups r2.trace =
        deviceLookups r.trace ++ (pre ++ [bad]).map fun dc => dc.Name := by
  induction pre generalizing reqs r with
  | nil =>
    simp only [unknownProfile, Bool.and_eq_true, Option.isNone_iff_eq_none] at hbad
    refine ⟨{ r with trace := r.trace ++ [Effect.deviceForName bad.Name false] ++
      [Effect.profileForName bad.Profile false] }, ?_, ?_, ?_⟩
    · simp only [List.nil_append, loadLoop, hbad.1, createDeviceDTO, hbad.2]
    · simp [addCalls_append, addCalls]
    · simp [deviceLookups_append, deviceLookups]
  | cons dc pre ih =>
    have hdc := hpre dc (List.mem_cons_self _ _)
    have hpre2 : ∀ dc ∈ pre, unknownProfile cache dc = false :=
      fun x hx => hpre x (List.mem_cons_of_mem _ hx)
    cases hdev : cache.deviceForName dc.Name with
    | some dev =>
      obtain ⟨r2, h1, h2, h3⟩ := ih hpre2 reqs
        { r with trace := r.trace ++ [Effect.deviceForName dc.Name true] }
      refine ⟨r2, ?_, ?_, ?_⟩
      · simp only [List.cons_append, loadLoop, hdev]
        exact h1
      · rw [h2]
        simp [addCalls_append, addCalls]
      · rw [h3]
        simp [deviceLookups_append, deviceLookups]
    | none =>
      cases hprf : cache.profileForName dc.Profile with
      | none => simp [unknownProfile, hdev, hprf] at hdc
      | some prf =>
        obtain ⟨r2, h1, h2, h3⟩ := ih hpre2
          (reqs ++ [{ RequestId := env.uuid r.uuids,
                      Device := FromDeviceModelToDTO
                        { Name := dc.Name, Description := dc.Description,
                          Protocols := dc.Protocols, Labels := dc.Labels,
                          ProfileName := prf.Name, ServiceName := serviceName,
                          AdminState := Unlocked, AutoEvents := dc.AutoEvents,
                          Created := Int.tdiv (env.now r.clocks) Millisecond } }])
          { uuids := r.uuids + 1, clocks := r.clocks + 1, adds := r.adds,
            trace := r.trace ++ [Effect.deviceForName dc.Name false] ++
              [Effect.profileForName dc.Profile true] }
        refine ⟨r2, ?_, ?_, ?_⟩
        · simp only [List.cons_append, loadLoop, hdev, createDeviceDTO, hprf]
          exact h1
        · rw [h2]
          simp [addCalls_append, addCalls]
        · rw [h3]
          simp [deviceLookups_append, deviceLookups]

/-- The loop of the loader when no entry has an unknown profile: it reaches its end,
with no call on the metadata client. -/
theorem loadLoop_known_profiles (env : Env) (cache : Cache) (serviceName : String)
    (deviceList : List DeviceConfig)
    (hall : ∀ dc ∈ deviceList, unknownProfile cache dc = false)
    (reqs : List AddDeviceRequest) (r : Run) :
    ∃ batch r2, loadLoop env cache serviceName deviceList reqs r = (Except.ok batch, r2) ∧
      addCalls r2.trace = addCalls r.trace := by
  induction deviceList generalizing reqs r with
  | nil => exact ⟨reqs, r, rfl, rfl⟩
  | cons dc rest ih =>
    have hdc := hall dc (List.mem_cons_self _ _)
    have hrest : ∀ dc ∈ rest, unknownProfile cache dc = false :=
      fun x hx => hall x (List.mem_cons_of_mem _ hx)
    cases hdev : cache.deviceForName dc.Name with
    | some dev =>
      obtain ⟨batch, r2, h1, h2⟩ := ih hrest reqs
        { r with trace := r.trace ++ [Effect.deviceForName dc.Name true] }
      refine ⟨batch, r2, ?_, ?_⟩
      · simp only [loadLoop, hdev]
        exact h1
      · rw [h2]
        simp [addCalls_append, addCalls]
    | none =>
      cases hprf : cache.profileForName dc.Profile with
      | none => simp [unknownProfile, hdev, hprf] at hdc
      | some prf =>
        obtain ⟨batch, r2, h1, h2⟩ := ih hrest
          (reqs ++ [{ RequestId := env.uuid r.uuids,
                      Device := FromDeviceModelToDTO
                        { Name := dc.Name, Description := dc.Description,
                          Protocols := dc.Protocols, Labels := dc.Labels,
                          ProfileName := prf.Name, ServiceName := serviceName,
                          AdminState := Unlocked, AutoEvents := dc.AutoEvents,
                          Created := Int.tdiv (env.now r.clocks) Millisecond } }])
          { uuids := r.uuids + 1, clocks := r.clocks + 1, adds := r.adds,
            trace := r.trace ++ [Effect.deviceForName dc.Name false] ++
              [Effect.profileForName dc.Profile true] }
        refine ⟨batch, r2, ?_, ?_⟩
        · simp only [loadLoop, hdev, createDeviceDTO, hprf]
          exact h1
        · rw [h2]
          simp [addCalls_append, addCalls]

/-- C8: if some configured entry that is not in the index references a profile absent
from the index, `LoadDevices` returns the error of the first such entry, makes no call
to the metadata client and looks up no entry after it; if there is no such entry,
`LoadDevices` makes exactly one add call and returns its result. -/
theorem LoadDevices_error_handling (env : Env) (cache : Cache) (serviceName : String) :
    (∀ (pre : List DeviceConfig) (bad : DeviceConfig) (rest : List DeviceConfig),
      (∀ dc ∈ pre, unknownProfile cache dc = false) → unknownProfile cache bad = true →
        (LoadDevices env cache serviceName (pre ++ bad :: rest)).1 =
            some (profileMissing bad) ∧
          addCalls (LoadDevices env cache serviceName (pre ++ bad :: rest)).2.trace = [] ∧
          deviceLookups (LoadDevices env cache serviceName (pre ++ bad :: rest)).2.trace =
            (pre ++ [bad]).map fun dc => dc.Name) ∧
    (∀ deviceList : List DeviceConfig,
      (∀ dc ∈ deviceList, unknownProfile cache dc = false) →
        (addCalls (LoadDevices env cache serviceName deviceList).2.trace).map
            (fun call => call.2) =
          [(LoadDevices env cache serviceName deviceList).1]) := by
  constructor
  · intro pre bad rest hpre hbad
    obtain ⟨r2, h1, h2, h3⟩ := loadLoop_unknown_profile env cache serviceName pre bad rest
      hpre hbad (List.replicate (pre ++ bad :: rest).length AddDeviceRequest.zero) Run.start
    have hload : LoadDevices env cache serviceName (pre ++ bad :: rest) =
        (some (profileMissing bad), r2) := by
      simp only [LoadDevices, h1]
    rw [hload]
    exact ⟨rfl, by rw [h2]; rfl, by rw [h3]; rfl⟩
  · intro deviceList hall
    obtain ⟨batch, r2, h1, h2⟩ := loadLoop_known_profiles env cache serviceName deviceList
      hall (List.replicate deviceList.length AddDeviceRequest.zero) Run.start
    have hload : LoadDevices env cache serviceName deviceList =
        (env.add r2.adds batch,
          { r2 with
            uuids := r2.uuids + 1
            adds := r2.adds + 1
            trace := r2.trace ++
              [Effect.add (some (env.uuid r2.uuids)) batch (env.add r2.adds batch)] }) := by
      simp only [LoadDevices, h1]
    rw [hload]
    simp only [addCalls_append, h2]
    rfl

/-- C8, an orphan entry between two good ones: the load fails with the orphan's error,
no add call is made and the entry after the orphan is not looked up; without the orphan
the load returns the result of its one add call. -/
theorem LoadDevices_error_handling_orphan :
    ((LoadDevices firstAddFails emptyIndex "svc" ([cameraConfig] ++ orphanConfig :: [lateConfig])).1 =
          some (profileMissing orphanConfig) ∧
        addCalls (LoadDevices firstAddFails emptyIndex "svc"
          ([cameraConfig] ++ orphanConfig :: [lateConfig])).2.trace = [] ∧
        deviceLookups (LoadDevices firstAddFails emptyIndex "svc"
          ([cameraConfig] ++ orphanConfig :: [lateConfig])).2.trace =
          ([cameraConfig] ++ [orphanConfig]).map fun dc => dc.Name) ∧
      (addCalls (LoadDevices firstAddFails emptyIndex "svc" [cameraConfig, lateConfig]).2.trace).map
          (fun call => call.2) =
        [(LoadDevices firstAddFails emptyIndex "svc" [cameraConfig, lateConfig]).1] ∧
      (LoadDevices firstAddFails emptyIndex "svc" [cameraConfig, lateConfig]).1 =
        some ⟨"ServiceUnavailable", "metadata is down"⟩ :=
  ⟨(LoadDevices_error_handling firstAddFails emptyIndex "svc").1 [cameraConfig] orphanConfig
      [lateConfig] (by decide) (by decide),
    (LoadDevices_error_handling firstAddFails emptyIndex "svc").2 [cameraConfig, lateConfig]
      (by decide),
    by decide⟩

/-! ## Dependency readiness gate -/

/-- A string has length zero exactly when it is the empty string. -/
theorem length_eq_zero_iff_empty (s : String) : s.length = 0 ↔ s = "" := by
  constructor
  · intro h
    have hdata : s.data = [] := List.length_eq_zero.1 h
    exact String.ext hdata
  · intro h
    subst h
    rfl

/-- The validation fails exactly when one of the four settings is missing. -/
theorem validateClientConfig_isSome (configuration : ConfigurationStruct) :
    (validateClientConfig configuration).isSome = true ↔
      ((configuration.client ClientMetadata).Host = "" ∨
        (configuration.client ClientMetadata).Port = 0 ∨
        (configuration.client ClientData).Host = "" ∨
        (configuration.client ClientData).Port = 0) := by
  unfold validateClientConfig
  simp only [beq_iff_eq, length_eq_zero_iff_empty]
  by_cases h1 : (configuration.client ClientMetadata).Host = ""
  · simp [h1]
  · by_cases h2 : (configuration.client ClientMetadata).Port = 0
    · simp [h1, h2]
    · by_cases h3 : (configuration.client ClientData).Host = ""
      · simp [h1, h2, h3]
      · by_cases h4 : (configuration.client ClientData).Port = 0
        · simp [h1, h2, h3, h4]
        · simp [h1, h2, h3, h4]

/-- C9: `validateClientConfig` returns an error if and only if the Core Metadata or the
Core Data client has an empty host or a zero port; and whenever it does,
`InitDependencyClients` returns false with no availability check at all: no registry
query, no ping, no sleep, in either of the two checks, whatever the surroundings. -/
theorem InitDependencyClients_fast_fail (configuration : ConfigurationStruct) :
    ((validateClientConfig configuration).isSome = true ↔
      ((configuration.client ClientMetadata).Host = "" ∨
        (configuration.client ClientMetadata).Port = 0 ∨
        (configuration.client ClientData).Host = "" ∨
        (configuration.client ClientData).Port = 0)) ∧
    ((validateClientConfig configuration).isSome = true →
      ∀ (env : GateEnv) (fuel : Nat),
        InitDependencyClients env configuration fuel = some ⟨false, [], [], false⟩) := by
  refine ⟨validateClientConfig_isSome configuration, ?_⟩
  intro h env fuel
  cases hv : validateClientConfig configuration with
  | none => simp [hv] at h
  | some err => simp [InitDependencyClients, hv]

/-- C9, a configuration without a metadata host: the validation fails and the gate
returns false with no probe, also where every probe would succeed at once. -/
theorem InitDependencyClients_fast_fail_no_host :
    (validateClientConfig noMetadataHost).isSome = true ∧
      InitDependencyClients unavailableGate noMetadataHost 5 = some ⟨false, [], [], false⟩ :=
  ⟨by decide,
    (InitDependencyClients_fast_fail noMetadataHost).2 (by decide) unavailableGate 5⟩

/-- C10 (the code departs from the claim): a registry that is alive and answers `false`,
without an error, for the dependency counts as success: `checkServiceAvailableViaRegistry`
returns no error, the check of the dependency returns true at its first probe, and with
such answers for both dependencies `InitDependencyClients` returns true at once. -/
theorem checkServiceAvailableViaRegistry_ignores_answer :
    aliveButUnavailable.IsAlive = true ∧
      aliveButUnavailable.IsServiceAvailable CoreDataServiceKey = (false, none) ∧
      (checkServiceAvailableViaRegistry ClientData aliveButUnavailable).1 = none ∧
      checkServiceAvailable unavailableGate ClientData 1 0 [] =
        some (true, [Probe.isAlive true,
          Probe.isServiceAvailable CoreDataServiceKey false none]) ∧
      InitDependencyClients unavailableGate bothClients 1 =
        some ⟨true,
          [Probe.isAlive true, Probe.isServiceAvailable CoreDataServiceKey false none],
          [Probe.isAlive true, Probe.isServiceAvailable CoreMetaDataServiceKey false none],
          true⟩ := by
  decide

/-- For a registry that answers `false` only together with an error, the check via the
registry succeeds exactly when the registry is alive and reports the dependency as
available, with no error. -/
theorem checkServiceAvailableViaRegistry_error_reporting (serviceId : String)
    (rc : RegistryClient)
    (hreg : ∀ key, (rc.IsServiceAvailable key).1 = false →
      (rc.IsServiceAvailable key).2 ≠ none) :
    (checkServiceAvailableViaRegistry serviceId rc).1 = none ↔
      rc.IsAlive = true ∧
        rc.IsServiceAvailable
          (if serviceId == ClientData then CoreDataServiceKey else CoreMetaDataServiceKey) =
          (true, none) := by
  have hkey := hreg
    (if serviceId == ClientData then CoreDataServiceKey else CoreMetaDataServiceKey)
  unfold checkServiceAvailableViaRegistry
  cases halive : rc.IsAlive with
  | false => simp
  | true =>
    simp only [Bool.not_true, Bool.false_eq_true, if_false, true_and]
    obtain ⟨available, err, hans⟩ : ∃ a e, rc.IsServiceAvailable
        (if serviceId == ClientData then CoreDataServiceKey else CoreMetaDataServiceKey) =
        (a, e) := ⟨_, _, rfl⟩
    rw [hans] at hkey ⊢
    cases err with
    | some e => simp
    | none =>
      cases available with
      | true => simp
      | false => exact absurd rfl (hkey rfl)

/-! ## The order of the identifiers -/

/-- C18: the result of `whitelistPass` does not depend on the order in which the map
`pw.Identifiers` is enumerated: for every enumeration `ids` of the identifiers the result
is the same, because within one protocol block the matched count reaches the number of
identifiers exactly when every identifier is present in the block and matches. -/
theorem whitelistPass_order_independent (ms : MatchString) (d : DiscoveredDevice)
    (pw : ProvisionWatcher) (ids : List (String × String))
    (hperm : ids.Perm pw.Identifiers) :
    whitelistPass ms d { pw with Identifiers := ids } = whitelistPass ms d pw ∧
      ∀ protocol : ProtocolProperties,
        whitelistCount ms protocol ids 0 = ids.length ↔
          ∀ rule ∈ pw.Identifiers, ∃ value, protocol.lookup rule.1 = some value ∧
            ms rule.2 value = (true, none) := by
  have hmem : ∀ rule, rule ∈ ids ↔ rule ∈ pw.Identifiers := fun rule => hperm.mem_iff
  constructor
  · rw [Bool.eq_iff_iff, whitelistPass_eq_true, whitelistPass_eq_true]
    constructor
    · rintro ⟨protocol, hp, h⟩
      exact ⟨protocol, hp, fun rule hr => h rule ((hmem rule).2 hr)⟩
    · rintro ⟨protocol, hp, h⟩
      exact ⟨protocol, hp, fun rule hr => h rule ((hmem rule).1 hr)⟩
  · intro protocol
    have h := whitelistCount_eq_iff ms protocol ids 0
    rw [Nat.zero_add] at h
    rw [h]
    constructor
    · intro hall rule hr
      exact hall rule ((hmem rule).2 hr)
    · intro hall rule hr
      exact hall rule ((hmem rule).1 hr)

/-- C18, the two enumerations of a map with two identifiers: the whitelist gives the same
answer in both orders, for a candidate that passes and for one that fails. -/
theorem whitelistPass_order_independent_swap :
    [("port", "80"), ("address", "10")].Perm splitWatcher.Identifiers ∧
      (whitelistPass regexpMatchString wholeCandidate
          { splitWatcher with Identifiers := [("port", "80"), ("address", "10")] } =
        whitelistPass regexpMatchString wholeCandidate splitWatcher) ∧
      whitelistPass regexpMatchString wholeCandidate splitWatcher = true ∧
      whitelistPass regexpMatchString splitCandidate
          { splitWatcher with Identifiers := [("port", "80"), ("address", "10")] } = false ∧
      whitelistPass regexpMatchString splitCandidate splitWatcher = false :=
  ⟨List.Perm.swap _ _ _,
    (whitelistPass_order_independent regexpMatchString wholeCandidate splitWatcher
      [("port", "80"), ("address", "10")] (List.Perm.swap _ _ _)).1,
    by decide, by decide, by decide⟩

/-! ## The checks of the gate -/

/-- The loop of a check in terms of the probe of one iteration. -/
theorem checkServiceAvailable_succ (env : GateEnv) (serviceId : String)
    (fuel iteration : Nat) (probes : List Probe) :
    checkServiceAvailable env serviceId (fuel + 1) iteration probes =
      if env.hasNotElapsed serviceId iteration then
        if env.cancelled serviceId iteration then some (false, probes)
        else
          match (probeOnce env serviceId iteration).1 with
          | none => some (true, probes ++ (probeOnce env serviceId iteration).2)
          | some _ =>
            checkServiceAvailable env serviceId fuel (iteration + 1)
              (probes ++ (probeOnce env serviceId iteration).2 ++ [Probe.sleep])
      else some (false, probes) := by
  rfl

/-- A check that returns true has made a successful probe in an iteration in which the
timer had not elapsed and the context was not cancelled. -/
theorem checkServiceAvailable_true (env : GateEnv) (serviceId : String)
    (fuel iteration : Nat) (probes result : List Probe)
    (h : checkServiceAvailable env serviceId fuel iteration probes = some (true, result)) :
    ∃ i, iteration ≤ i ∧ env.hasNotElapsed serviceId i = true ∧
      env.cancelled serviceId i = false ∧ (probeOnce env serviceId i).1 = none := by
  induction fuel generalizing iteration probes with
  | zero => simp [checkServiceAvailable] at h
  | succ fuel ih =>
    rw [checkServiceAvailable_succ] at h
    cases ht : env.hasNotElapsed serviceId iteration with
    | false => simp [ht] at h
    | true =>
      cases hc : env.cancelled serviceId iteration with
      | true => simp [ht, hc] at h
      | false =>
        cases hp : (probeOnce env serviceId iteration).1 with
        | none => exact ⟨iteration, le_refl _, ht, hc, hp⟩
        | some err =>
          simp only [ht, hc, hp, if_true, Bool.false_eq_true, if_false] at h
          obtain ⟨i, hi, h1, h2, h3⟩ := ih (iteration + 1) _ h
          exact ⟨i, by omega, h1, h2, h3⟩

/-- A check returns once the timer has elapsed: the iterations up to that moment are
enough fuel. -/
theorem checkServiceAvailable_returns (env : GateEnv) (serviceId : String)
    (k iteration : Nat) (probes : List Probe)
    (h : env.hasNotElapsed serviceId (iteration + k) = false) :
    (checkServiceAvailable env serviceId (k + 1) iteration probes).isSome = true := by
  induction k generalizing iteration probes with
  | zero =>
    rw [checkServiceAvailable_succ]
    rw [Nat.add_zero] at h
    simp [h]
  | succ k ih =>
    rw [checkServiceAvailable_succ]
    cases ht : env.hasNotElapsed serviceId iteration with
    | false => simp
    | true =>
      cases hc : env.cancelled serviceId iteration with
      | true => simp
      | false =>
        cases hp : (probeOnce env serviceId iteration).1 with
        | none => simp
        | some err =>
          simp only [if_true, Bool.false_eq_true, if_false]
          exact ih (iteration + 1) _ (by rw [← h]; congr 1; omega)

/-- C11: `checkDependencyServices` returns true exactly when the checks of Core Data and
of Core Metadata both return true; a check returns true only if one of its probes
succeeded in an iteration in which the timer had not elapsed and the context was not
cancelled; a check whose context is cancelled or whose timer has elapsed when it starts
returns false with no probe; and a check returns once the timer has elapsed. -/
theorem checkDependencyServices_all_checks (env : GateEnv) :
    (∀ (fuel : Nat) (ok : Bool) (probesData probesMetadata : List Probe),
      checkDependencyServices env fuel = some (ok, probesData, probesMetadata) →
        (ok = true ↔
          checkServiceAvailable env ClientData fuel 0 [] = some (true, probesData) ∧
            checkServiceAvailable env ClientMetadata fuel 0 [] =
              some (true, probesMetadata))) ∧
    (∀ (serviceId : String) (fuel : Nat) (result : List Probe),
      checkServiceAvailable env serviceId fuel 0 [] = some (true, result) →
        ∃ i, env.hasNotElapsed serviceId i = true ∧ env.cancelled serviceId i = false ∧
          (probeOnce env serviceId i).1 = none) ∧
    (∀ (serviceId : String) (fuel : Nat),
      (env.hasNotElapsed serviceId 0 = false ∨ env.cancelled serviceId 0 = true) →
        checkServiceAvailable env serviceId (fuel + 1) 0 [] = some (false, [])) ∧
    (∀ n : Nat, env.hasNotElapsed ClientData n = false →
      env.hasNotElapsed ClientMetadata n = false →
        (checkDependencyServices env (n + 1)).isSome = true) := by
  refine ⟨?_, ?_, ?_, ?_⟩
  · intro fuel ok probesData probesMetadata h
    unfold checkDependencyServices at h
    cases hd : checkServiceAvailable env ClientData fuel 0 [] with
    | none => simp [hd] at h
    | some rd =>
      cases hm : checkServiceAvailable env ClientMetadata fuel 0 [] with
      | none => simp [hd, hm] at h
      | some rm =>
        obtain ⟨okData, pd⟩ := rd
        obtain ⟨okMetadata, pm⟩ := rm
        simp only [hd, hm, Option.some.injEq, Prod.mk.injEq] at h
        obtain ⟨hok, hpd, hpm⟩ := h
        subst hok hpd hpm
        simp
  · intro serviceId fuel result h
    obtain ⟨i, _, h1, h2, h3⟩ := checkServiceAvailable_true env serviceId fuel 0 [] result h
    exact ⟨i, h1, h2, h3⟩
  · intro serviceId fuel h
    rw [checkServiceAvailable_succ]
    rcases h with h | h
    · simp [h]
    · cases ht : env.hasNotElapsed serviceId 0 <;> simp [h]
  · intro n hd hm
    have h1 := checkServiceAvailable_returns env ClientData n 0 [] (by simpa using hd)
    have h2 := checkServiceAvailable_returns env ClientMetadata n 0 [] (by simpa using hm)
    unfold checkDependencyServices
    cases hcd : checkServiceAvailable env ClientData (n + 1) 0 [] with
    | none => simp [hcd] at h1
    | some rd =>
      cases hcm : checkServiceAvailable env ClientMetadata (n + 1) 0 [] with
      | none => simp [hcm] at h2
      | some rm => simp

/-- C11, two gates: with a ping of Core Data that succeeds in its second iteration both
checks return true and so does the gate; with a cancelled context a check returns false
with no probe, and the gate returns false. -/
theorem checkDependencyServices_all_checks_gates :
    checkDependencyServices slowDataGate 5 =
        some (true,
          [Probe.ping ClientData (some "connection refused"), Probe.sleep,
            Probe.ping ClientData none],
          [Probe.ping ClientMetadata none]) ∧
      (true = true ↔
        checkServiceAvailable slowDataGate ClientData 5 0 [] =
            some (true,
              [Probe.ping ClientData (some "connection refused"), Probe.sleep,
                Probe.ping ClientData none]) ∧
          checkServiceAvailable slowDataGate ClientMetadata 5 0 [] =
            some (true, [Probe.ping ClientMetadata none])) ∧
      checkServiceAvailable cancelledGate ClientData (4 + 1) 0 [] = some (false, []) ∧
      checkDependencyServices cancelledGate 5 = some (false, [], []) ∧
      (checkDependencyServices slowDataGate (4 + 1)).isSome = true :=
  ⟨by decide,
    (checkDependencyServices_all_checks slowDataGate).1 5 true _ _ (by decide),
    (checkDependencyServices_all_checks cancelledGate).2.2.1 ClientData 4
      (Or.inr (by decide)),
    by decide,
    (checkDependencyServices_all_checks slowDataGate).2.2.2 4 (by decide) (by decide)⟩

/-! ## One worker of the telemetry pipeline -/

/-- The events forwarded in a concatenation. -/
theorem forwarded_append (a b : List AsyncEffect) :
    forwarded (a ++ b) = forwarded a ++ forwarded b := by
  induction a with
  | nil => rfl
  | cons e rest ih => cases e <;> simp [forwarded, ih]

/-- The resource lookups of a concatenation. -/
theorem resourceLookups_append (a b : List AsyncEffect) :
    resourceLookups (a ++ b) = resourceLookups a ++ resourceLookups b := by
  induction a with
  | nil => rfl
  | cons e rest ih => cases e <;> simp [resourceLookups, ih]

/-- The loop over the command values: it appends the conversions of the values whose
resource resolves, in order, forwards nothing and looks every value up. -/
theorem readingsLoop_spec (cache : Cache) (toReading : ToReading) (device : Device)
    (cvs : List CommandValue) (readings : List Reading) (effects : List AsyncEffect) :
    (readingsLoop cache toReading device cvs readings effects).1 =
        readings ++ cvs.filterMap (fun cv =>
          (cache.deviceResource device.ProfileName cv.DeviceResourceName).map
            fun dr => toReading cv device.Name dr.MediaType dr.FloatEncoding) ∧
      forwarded (readingsLoop cache toReading device cvs readings effects).2 =
        forwarded effects ∧
      resourceLookups (readingsLoop cache toReading device cvs readings effects).2 =
        resourceLookups effects ++ cvs.map fun cv => cv.DeviceResourceName := by
  induction cvs generalizing readings effects with
  | nil => simp [readingsLoop]
  | cons cv rest ih =>
    cases hdr : cache.deviceResource device.ProfileName cv.DeviceResourceName with
    | none =>
      simp only [readingsLoop, hdr]
      obtain ⟨h1, h2, h3⟩ := ih readings
        (effects ++ [AsyncEffect.deviceResource device.ProfileName cv.DeviceResourceName false])
      refine ⟨?_, ?_, ?_⟩
      · rw [h1]
        simp [List.filterMap_cons, hdr]
      · rw [h2]
        simp [forwarded_append, forwarded]
      · rw [h3]
        simp [resourceLookups_append, resourceLookups]
    | some dr =>
      simp only [readingsLoop, hdr]
      obtain ⟨h1, h2, h3⟩ := ih
        (readings ++ [toReading cv device.Name dr.MediaType dr.FloatEncoding])
        (effects ++ [AsyncEffect.deviceResource device.ProfileName cv.DeviceResourceName true])
      refine ⟨?_, ?_, ?_⟩
      · rw [h1]
        simp [List.filterMap_cons, hdr]
      · rw [h2]
        simp [forwarded_append, forwarded]
      · rw [h3]
        simp [resourceLookups_append, resourceLookups]

/-- C12: for an item whose device is in the index, `sendAsyncValues` forwards exactly one
event, for that device; its readings are the conversions of the command values whose
device-resource name resolves in the profile of the device, in their original order;
every command value is looked up, so a value with an unknown resource is skipped without
ending the item. -/
theorem sendAsyncValues_partial_drop (cache : Cache) (toReading : ToReading) (origin : Int)
    (acv : AsyncValues) (device : Device)
    (hdev : cache.deviceForName acv.DeviceName = some device) :
    forwarded (sendAsyncValues cache toReading origin acv) =
        [{ Device := device.Name,
           Readings := acv.CommandValues.filterMap (fun cv =>
             (cache.deviceResource device.ProfileName cv.DeviceResourceName).map
               fun dr => toReading cv device.Name dr.MediaType dr.FloatEncoding),
           Origin := origin }] ∧
      resourceLookups (sendAsyncValues cache toReading origin acv) =
        acv.CommandValues.map fun cv => cv.DeviceResourceName := by
  obtain ⟨h1, h2, h3⟩ := readingsLoop_spec cache toReading device acv.CommandValues []
    [AsyncEffect.acquire, AsyncEffect.deviceForName acv.DeviceName true]
  simp only [sendAsyncValues, hdev]
  constructor
  · rw [forwarded_append, h2, h1]
    simp [forwarded]
  · rw [resourceLookups_append, h3]
    simp [resourceLookups]

/-- C12, three values with one unknown resource: the forwarded event has exactly two
readings, those of the first and of the third value. -/
theorem sendAsyncValues_partial_drop_three_values :
    telemetryCache.deviceForName threeValues.DeviceName = some thermostat ∧
      (forwarded (sendAsyncValues telemetryCache plainReading 5000 threeValues) =
          [{ Device := thermostat.Name,
             Readings := threeValues.CommandValues.filterMap (fun cv =>
               (telemetryCache.deviceResource thermostat.ProfileName
                 cv.DeviceResourceName).map
                 fun dr => plainReading cv thermostat.Name dr.MediaType dr.FloatEncoding),
             Origin := 5000 }] ∧
        resourceLookups (sendAsyncValues telemetryCache plainReading 5000 threeValues) =
          threeValues.CommandValues.map fun cv => cv.DeviceResourceName) ∧
      (forwarded (sendAsyncValues telemetryCache plainReading 5000 threeValues)).map
          (fun event => (event.Device, event.Readings.map fun r => (r.ResourceName, r.Value))) =
        [("D1", [("Temp", "42"), ("Humidity", "55")])] :=
  ⟨by decide,
    sendAsyncValues_partial_drop telemetryCache plainReading 5000 threeValues thermostat
      (by decide),
    by decide⟩

/-- C13: for an item whose device name is not in the index, `sendAsyncValues` takes a
slot, looks the device up and gives the slot back: no event is forwarded and no resource
is looked up. -/
theorem sendAsyncValues_unknown_device (cache : Cache) (toReading : ToReading)
    (origin : Int) (acv : AsyncValues)
    (hnone : cache.deviceForName acv.DeviceName = none) :
    sendAsyncValues cache toReading origin acv =
        [AsyncEffect.acquire, AsyncEffect.deviceForName acv.DeviceName false,
          AsyncEffect.release] ∧
      forwarded (sendAsyncValues cache toReading origin acv) = [] ∧
      resourceLookups (sendAsyncValues cache toReading origin acv) = [] := by
  have h : sendAsyncValues cache toReading origin acv =
      [AsyncEffect.acquire, AsyncEffect.deviceForName acv.DeviceName false,
        AsyncEffect.release] := by
    simp only [sendAsyncValues, hnone]
  rw [h]
  exact ⟨rfl, rfl, rfl⟩

/-- C13, a stranger: the index does not hold D9 and the item is dropped with its slot
released. -/
theorem sendAsyncValues_unknown_device_stranger :
    telemetryCache.deviceForName strangerValues.DeviceName = none ∧
      sendAsyncValues telemetryCache plainReading 5000 strangerValues =
        [AsyncEffect.acquire, AsyncEffect.deviceForName strangerValues.DeviceName false,
          AsyncEffect.release] ∧
      forwarded (sendAsyncValues telemetryCache plainReading 5000 strangerValues) = [] ∧
      resourceLookups (sendAsyncValues telemetryCache plainReading 5000 strangerValues) = [] :=
  ⟨by decide,
    sendAsyncValues_unknown_device telemetryCache plainReading 5000 strangerValues
      (by decide)⟩

/-! ## The pool of the telemetry pipeline -/

/-- Removing the element at a position where there is one shortens the list by one. -/
theorem length_eraseIdx_of_getElem? {α : Type} (l : List α) (i : Nat) (a : α)
    (h : l[i]? = some a) : (l.eraseIdx i).length + 1 = l.length := by
  obtain ⟨hi, _⟩ := List.getElem?_eq_some.1 h
  rw [List.length_eraseIdx, if_pos hi]
  omega

/-- What every move keeps: the channel `working` holds one element per worker that holds a
slot, it holds at most `size` elements, and every item is in the queue, with a worker
that has not returned, or with one that has. -/
theorem Pipeline.step_invariant (size : Nat) (env : AsyncEnv) (total : Nat) (move : Move)
    (s s2 : Pipeline) (hstep : Pipeline.step size env move s = some s2)
    (hinv : s.working = s.holders ∧ s.working ≤ size ∧
      s.asyncCh.length + s.unfinished + s.finished = total) :
    s2.working = s2.holders ∧ s2.working ≤ size ∧
      s2.asyncCh.length + s2.unfinished + s2.finished = total := by
  obtain ⟨h1, h2, h3⟩ := hinv
  simp only [Pipeline.holders, Pipeline.unfinished] at *
  cases move with
  | dispatch =>
    cases hq : s.asyncCh with
    | nil => simp [Pipeline.step, hq] at hstep
    | cons acv rest =>
      simp only [Pipeline.step, hq, Option.some.injEq] at hstep
      subst hstep
      simp only [List.length_append, List.length_singleton]
      rw [hq] at h3
      simp only [List.length_cons] at h3
      omega
  | acquire worker =>
    cases hw : s.blocked[worker]? with
    | none => simp [Pipeline.step, hw] at hstep
    | some acv =>
      have hlen := length_eraseIdx_of_getElem? s.blocked worker acv hw
      by_cases hfree : s.working < size
      · simp only [Pipeline.step, hw, hfree, if_true, Option.some.injEq] at hstep
        subst hstep
        simp only [List.length_append, List.length_singleton]
        omega
      · simp [Pipeline.step, hw, hfree] at hstep
  | body worker =>
    cases hw : s.running[worker]? with
    | none => simp [Pipeline.step, hw] at hstep
    | some acv =>
      have hlen := length_eraseIdx_of_getElem? s.running worker acv hw
      simp only [Pipeline.step, hw, Option.some.injEq] at hstep
      subst hstep
      simp only [List.length_append, List.length_singleton]
      omega
  | release worker =>
    cases hw : s.leaving[worker]? with
    | none => simp [Pipeline.step, hw] at hstep
    | some acv =>
      have hlen := length_eraseIdx_of_getElem? s.leaving worker acv hw
      simp only [Pipeline.step, hw, Option.some.injEq] at hstep
      subst hstep
      simp only
      omega

/-- The invariant holds in every state that a schedule reaches from the start. -/
theorem Pipeline.exec_invariant (size : Nat) (env : AsyncEnv) (items : List AsyncValues)
    (schedule : List Move) (s : Pipeline)
    (hexec : Pipeline.exec size env schedule (Pipeline.init items) = some s) :
    s.working = s.holders ∧ s.working ≤ size ∧
      s.asyncCh.length + s.unfinished + s.finished = items.length := by
  have hgen : ∀ (schedule : List Move) (s0 s : Pipeline),
      Pipeline.exec size env schedule s0 = some s →
      (s0.working = s0.holders ∧ s0.working ≤ size ∧
        s0.asyncCh.length + s0.unfinished + s0.finished = items.length) →
      (s.working = s.holders ∧ s.working ≤ size ∧
        s.asyncCh.length + s.unfinished + s.finished = items.length) := by
    intro schedule
    induction schedule with
    | nil =>
      intro s0 s h hinv
      simp only [Pipeline.exec, Option.some.injEq] at h
      exact h ▸ hinv
    | cons move rest ih =>
      intro s0 s h hinv
      cases hstep : Pipeline.step size env move s0 with
      | none => simp [Pipeline.exec, hstep] at h
      | some s1 =>
        simp only [Pipeline.exec, hstep] at h
        exact ih s1 s h (Pipeline.step_invariant size env items.length move s0 s1 hstep hinv)
  exact hgen schedule (Pipeline.init items) s hexec
    ⟨rfl, Nat.zero_le _, by simp [Pipeline.init, Pipeline.unfinished]⟩

/-- C14: for every `AsyncBufferSize`, every list of queued items and every schedule, in
the state reached the workers that hold a slot (past `working <- true`, before the
deferred `<-working`) are at most `AsyncBufferSize`. -/
theorem Pipeline.bounded_concurrency (size : Nat) (env : AsyncEnv)
    (items : List AsyncValues) (schedule : List Move) (s : Pipeline)
    (hexec : Pipeline.exec size env schedule (Pipeline.init items) = some s) :
    s.holders ≤ size := by
  obtain ⟨h1, h2, _⟩ := Pipeline.exec_invariant size env items schedule s hexec
  omega

/-- C14, two slots and three items: after three dispatches and two acquisitions the third
acquisition is not enabled, and in the state reached two workers hold a slot. -/
theorem Pipeline.bounded_concurrency_two_slots :
    Pipeline.exec 2 telemetryEnv
        [Move.dispatch, Move.dispatch, Move.dispatch, Move.acquire 0, Move.acquire 0]
        (Pipeline.init [threeValues, boilerValue, strangerValues]) =
      some { asyncCh := [], blocked := [strangerValues],
             running := [threeValues, boilerValue], leaving := [], finished := 0,
             working := 2, events := [] } ∧
      Pipeline.holders (⟨[], [strangerValues], [threeValues, boilerValue], [], 0, 2, []⟩ : Pipeline) ≤ 2 ∧
      Pipeline.exec 2 telemetryEnv
        [Move.dispatch, Move.dispatch, Move.dispatch, Move.acquire 0, Move.acquire 0,
          Move.acquire 0]
        (Pipeline.init [threeValues, boilerValue, strangerValues]) = none :=
  ⟨by decide,
    Pipeline.bounded_concurrency 2 telemetryEnv [threeValues, boilerValue, strangerValues]
      [Move.dispatch, Move.dispatch, Move.dispatch, Move.acquire 0, Move.acquire 0] _
      (by decide),
    by decide⟩

/-- C15 (the code departs from the claim): with `AsyncBufferSize = 1` and three queued
items, the dispatcher goes on taking items while the one slot is held: a state is reached
in which the channel `working` is full, the queue is drained and three workers are
started and unfinished. -/
theorem Pipeline.dispatcher_does_not_wait :
    (Pipeline.exec 1 telemetryEnv
        [Move.dispatch, Move.acquire 0, Move.dispatch, Move.dispatch]
        (Pipeline.init [threeValues, boilerValue, strangerValues])).map
      (fun s => (s.working, s.asyncCh.length, s.unfinished)) = some (1, 0, 3) := by
  decide

/-- C16 (the code departs from the claim): with `AsyncBufferSize = 1` and the items of D1
and D2 queued in this order, the schedule in which the worker of the second item
completes `working <- true` first forwards the event of D2 before the event of D1. -/
theorem Pipeline.single_slot_not_fifo :
    (Pipeline.exec 1 telemetryEnv
        [Move.dispatch, Move.dispatch, Move.acquire 1, Move.body 0, Move.release 0,
          Move.acquire 0, Move.body 0, Move.release 0]
        (Pipeline.init [threeValues, boilerValue])).map
      (fun s => (s.events.map fun event => event.Device, s.finished)) =
        some (["D2", "D1"], 2) ∧
      [threeValues, boilerValue].map (fun acv => acv.DeviceName) = ["D1", "D2"] := by
  decide

/-! ## Device removal -/

/-- C17: for every id, `DeleteDevice` calls the removal from the index before it
notifies the driver, and the index afterwards is the same whatever the driver answers and
holds no device of that id. -/
theorem DeleteDevice_index_independent_of_driver
    (driver1 driver2 : String → List (String × ProtocolProperties) → Option String)
    (cache : DeviceCache) (id correlationID : String) :
    (DeleteDevice driver1 cache id correlationID).1 =
        (DeleteDevice driver2 cache id correlationID).1 ∧
      DeviceCache.ForId (DeleteDevice driver1 cache id correlationID).1 id = none ∧
      (DeleteDevice driver1 cache id correlationID).1 = (DeviceCache.Remove cache id).1 ∧
      ∃ (before : List ControllerEffect) (name : String)
          (protocols : List (String × ProtocolProperties)),
        (DeleteDevice driver1 cache id correlationID).2 =
          before ++
            [ControllerEffect.remove id (DeviceCache.Remove cache id).2,
              ControllerEffect.removeDevice name protocols (driver1 name protocols),
              ControllerEffect.writeHeader 200, ControllerEffect.write correlationID] ∧
        ∀ effect ∈ before, ∀ n p e, effect ≠ ControllerEffect.removeDevice n p e := by
  refine ⟨rfl, ?_, rfl, ?_⟩
  · simp only [DeleteDevice, DeviceCache.Remove, DeviceCache.ForId]
    cases hfind : List.find? (fun dev => dev.Id == id) cache with
    | none => exact hfind
    | some dev =>
      simp only
      rw [List.find?_eq_none]
      intro x hx
      have := (List.mem_filter.1 hx).2
      simpa using this
  · refine ⟨[ControllerEffect.forId id (DeviceCache.ForId cache id).isSome] ++
        (if (DeviceCache.ForId cache id).isSome then
          [ControllerEffect.stopForDevice
            ((DeviceCache.ForId cache id).getD { Id := "", Name := "", Protocols := [] }).Name]
         else []),
      ((DeviceCache.ForId cache id).getD { Id := "", Name := "", Protocols := [] }).Name,
      ((DeviceCache.ForId cache id).getD { Id := "", Name := "", Protocols := [] }).Protocols,
      ?_, ?_⟩
    · simp [DeleteDevice]
    · intro effect heff n p e
      cases hf : (DeviceCache.ForId cache id).isSome with
      | false =>
        simp only [hf, Bool.false_eq_true, if_false, List.append_nil,
          List.mem_singleton] at heff
        subst heff
        simp
      | true =>
        simp only [hf, if_true, List.singleton_append, List.mem_cons,
          List.mem_singleton, List.not_mem_nil, or_false] at heff
        rcases heff with h | h <;> subst h <;> simp

end DeviceSdk
